import Mathlib

/-!
Verification of the mysql-backup repository against its specification.

Strings from the Python source are modelled as `List Char` (named `Str`
below) so that structural induction is available.  Python string
operations used by the code (`in` as substring test, `str.lower`,
`str.startswith`, `str.endswith`, `re` patterns that appear in the
source) are modelled by executable functions on `Str`.  Subprocess
executions are modelled by their observable results (exit code and
captured error stream), supplied as inputs to the model; the
filesystem is modelled by the data the code reads from it.
-/

set_option maxRecDepth 40000

abbrev Str := List Char

/-- Apostrophe character, written by code point. -/
def aposC : Char := Char.ofNat 39

/-- Opening brace character, written by code point. -/
def lbrace : Char := Char.ofNat 123

/-- Closing brace character, written by code point. -/
def rbrace : Char := Char.ofNat 125

/-- Double quote character, written by code point. -/
def dquote : Char := Char.ofNat 34

/-- Backslash character, written by code point. -/
def bslash : Char := Char.ofNat 92

/-- Python substring containment `p in c` on strings. -/
def containsSub (p : Str) : Str → Bool
  | [] => p.isEmpty
  | c :: cs => p.isPrefixOf (c :: cs) || containsSub p cs

/-- Python `str.lower` restricted to ASCII case mapping (the table
identifiers handled by the code are ASCII). -/
def lowerStr (s : Str) : Str := s.map Char.toLower

/-- Character class of the regex `[\w\.]` from core.py line 155,
restricted to ASCII word characters. -/
def wordlike (c : Char) : Bool := c.isAlphanum || c == '_' || c == '.'

/-- Literal part before the table name in the pattern
`Table '([\w\.]+)' doesn't exist` (core.py line 155). -/
def tablePat1 : Str := "Table ".data ++ [aposC]

/-- Literal part after the table name in the same pattern. -/
def tablePat2 : Str := [aposC] ++ " doesn".data ++ [aposC] ++ "t exist".data

/-- First regex match of `Table '([\w\.]+)' doesn't exist` in the error
stream, returning the captured table name.  The code calls
`re.findall` but only uses truthiness and element `[0]` of the result
(core.py lines 155-159), so the first match determines the behaviour.
The character class excludes the quote, so the greedy capture is the
maximal run of `wordlike` characters and no backtracking can occur. -/
def findFirstTableMatch : Str → Option Str
  | [] => none
  | c :: cs =>
      if tablePat1.isPrefixOf (c :: cs) then
        let body := (c :: cs).drop tablePat1.length
        let name := body.takeWhile wordlike
        let rest := body.dropWhile wordlike
        if !name.isEmpty && tablePat2.isPrefixOf rest then some name
        else findFirstTableMatch cs
      else findFirstTableMatch cs

/-- Marker `Unknown table 'LIBRARIES'` tested by substring containment
at core.py line 174. -/
def libMarker : Str := "Unknown table ".data ++ [aposC] ++ "LIBRARIES".data ++ [aposC]

/-- Flag substrings filtered out by the compatibility downgrade
(core.py lines 176-177). -/
def compatFlags : List Str := ["--routines".data, "--triggers".data, "--events".data]

/-- Python `any(p in c for p in ["--routines", "--triggers", "--events"])`. -/
def hasCompatSub (c : Str) : Bool := compatFlags.any (fun p => containsSub p c)

/-- Argument `--ignore-table=<t>` appended for a skipped table
(core.py lines 125 and 167). -/
def ignoreArg (t : Str) : Str := "--ignore-table=".data ++ t

/-- Observable result of one execution of the dump subprocess:
exit code and captured error stream (core.py line 149). -/
structure AttemptResult where
  returncode : Int
  stderr : Str
deriving DecidableEq, Repr

/-- Mutable state of the execution and recovery loop in
`perform_backup_for_config` (core.py lines 27-28 and 133-137):
the dump command, the skip set, the retry error log, and the
force-retry counters. -/
structure LoopState where
  cmd : List Str
  skipped_tables : List Str
  retry_errors : List Str
  used_force : Bool
  force_attempts : Nat
  retry_count : Nat
deriving DecidableEq, Repr

/-- Classification of one loop iteration, mirroring the transition
labels of the specification state machine (spec section 4.3). -/
inductive StepClass
  | tableRetry
  | compatRetry
  | forceStart
  | forceContinue
  | failed
  | succeeded
  | fallthrough
deriving DecidableEq, Repr

/-- Python `str.strip` on both ends (whitespace). -/
def trimWs (s : Str) : Str :=
  ((s.dropWhile Char.isWhitespace).reverse.dropWhile Char.isWhitespace).reverse

/-- Decimal rendering of a natural number. -/
def natToStr (n : Nat) : Str := (toString n).data

/-- Error log entry built at core.py lines 183-184. -/
def attemptError (cfgName : Str) (tnf : Bool) (n : Nat) (stderr : Str) : Str :=
  '[' :: cfgName ++ [']', ' '] ++
    (if tnf then "第".data ++ natToStr n ++ "次尝试错误".data else "错误".data) ++
    [':', ' '] ++ trimWs stderr

/-- One iteration of the retry loop body, core.py lines 141-218, given
the observed result of the subprocess run for the current command.
Returns the updated state and the classification of the iteration. -/
def backupStep (cfgName : Str) (st : LoopState) (r : AttemptResult) : LoopState × StepClass :=
  let firstMatch : Option Str :=
    if r.returncode ≠ 0 then findFirstTableMatch r.stderr else none
  let tableNew : Option Str :=
    match firstMatch with
    | some t => if lowerStr t ∈ st.skipped_tables then none else some (lowerStr t)
    | none => none
  let st1 : LoopState :=
    match tableNew with
    | some tl =>
        { st with skipped_tables := st.skipped_tables ++ [tl],
                  cmd := st.cmd ++ [ignoreArg tl] }
    | none => st
  let table_not_found := tableNew.isSome
  let compat : Bool :=
    !table_not_found && decide (r.returncode ≠ 0) && containsSub libMarker r.stderr
  let st2 : LoopState :=
    if compat then { st1 with cmd := st1.cmd.filter (fun c => !hasCompatSub c) } else st1
  let st3 : LoopState :=
    if r.returncode ≠ 0 then
      { st2 with retry_count := st2.retry_count + 1,
                 retry_errors := st2.retry_errors ++
                   [attemptError cfgName table_not_found (st2.retry_count + 1) r.stderr] }
    else st2
  if table_not_found then (st3, .tableRetry)
  else if compat then (st3, .compatRetry)
  else if r.returncode ≠ 0 ∧ !st3.used_force then
    ({ st3 with used_force := true, force_attempts := st3.force_attempts + 1 }, .forceStart)
  else if r.returncode ≠ 0 ∧ st3.force_attempts > 0 then
    if st3.force_attempts < 3 then
      ({ st3 with force_attempts := st3.force_attempts + 1 }, .forceContinue)
    else (st3, .failed)
  else if r.returncode = 0 then (st3, .succeeded)
  else (st3, .fallthrough)

/-- Terminal outcome of the retry loop.  `exhausted` means the supplied
attempt sequence ended while the loop would still continue. -/
inductive LoopResult
  | succeeded (st : LoopState)
  | failed (st : LoopState) (lastStderr : Str)
  | exhausted (st : LoopState)
deriving DecidableEq, Repr

/-- Final state carried by a loop outcome. -/
def LoopResult.state : LoopResult → LoopState
  | .succeeded st => st
  | .failed st _ => st
  | .exhausted st => st

/-- Full record of a loop run: the state before each executed attempt
followed by the state after the last executed attempt, and the
terminal outcome. -/
structure RunTrace where
  states : List LoopState
  result : LoopResult
deriving Repr

/-- The retry loop of core.py lines 139-218, driven by the sequence of
observed subprocess results (one per executed attempt). -/
def runLoop (cfgName : Str) (st : LoopState) : List AttemptResult → RunTrace
  | [] => ⟨[st], .exhausted st⟩
  | r :: rs =>
      let p := backupStep cfgName st r
      match p.2 with
      | .succeeded => ⟨[st, p.1], .succeeded p.1⟩
      | .failed => ⟨[st, p.1], .failed p.1 r.stderr⟩
      | _ =>
          let t := runLoop cfgName p.1 rs
          ⟨st :: t.states, t.result⟩

/-- Pre-flight handling of one missing table (core.py lines 120-126). -/
def preflightAdd (cfgName : Str) (st : LoopState) (t : Str) : LoopState :=
  let tl := lowerStr t
  if tl ∈ st.skipped_tables then st
  else
    { st with skipped_tables := st.skipped_tables ++ [tl],
              cmd := st.cmd ++ [ignoreArg tl],
              retry_errors := st.retry_errors ++
                [('[' :: cfgName ++ [']', ' ']) ++ "预检查发现缺失表: ".data ++ t] }

/-- Pre-flight table validation loop (core.py lines 116-126).  The
nested iteration over the configured databases and the missing tables
reported for each of them visits the reported `database.table`
identifiers in order, so it is modelled by the concatenated list. -/
def preflight (cfgName : Str) (st : LoopState) (missing : List Str) : LoopState :=
  missing.foldl (preflightAdd cfgName) st

/-- Loop state at the start of the retry loop (core.py lines 27-28 and
133-137), for a given initial dump command. -/
def initState (initCmd : List Str) : LoopState :=
  ⟨initCmd, [], [], false, 0, 0⟩

/-- Pre-flight validation followed by the retry loop. -/
def fullRunTrace (cfgName : Str) (initCmd : List Str) (missing : List Str)
    (trace : List AttemptResult) : RunTrace :=
  runLoop cfgName (preflight cfgName (initState initCmd) missing) trace

/-- All loop states of a run, including the states reached during the
pre-flight additions. -/
def fullStates (cfgName : Str) (initCmd : List Str) (missing : List Str)
    (trace : List AttemptResult) : List LoopState :=
  missing.scanl (preflightAdd cfgName) (initState initCmd) ++
    (fullRunTrace cfgName initCmd missing trace).states

/-- Configuration fields used by the command builder
(src/config/schemas.py as consumed by core.py lines 79-113).
`database_names` is `none` when the Python value is falsy
(the all-databases mode). -/
structure DBConfig where
  host : Str
  port : Str
  user : Str
  password : Str
  defaults_file : Option Str
  database_names : Option Str
deriving Repr

/-- Python `str.split(',')`. -/
def splitComma : Str → List Str
  | [] => [[]]
  | c :: cs =>
      match splitComma cs with
      | [] => []
      | h :: t => if c == ',' then [] :: h :: t else (c :: h) :: t

/-- Python `list.insert(1, x)` (clamping when the list is shorter). -/
def insertAt1 (x : Str) : List Str → List Str
  | [] => [x]
  | a :: rest => a :: x :: rest

/-- Lexicographic comparison of Python version 3-tuples. -/
def verLt (a b : Nat × Nat × Nat) : Bool :=
  a.1 < b.1 || (a.1 == b.1 && (a.2.1 < b.2.1 || (a.2.1 == b.2.1 && a.2.2 < b.2.2)))

/-- The dump command assembled at core.py lines 79-113. -/
def buildCmd (cfg : DBConfig) (serverVersion : Nat × Nat × Nat)
    (mysqldumpPath tempFile : Str) : List Str :=
  let cmd : List Str :=
    [mysqldumpPath,
     "--host=".data ++ cfg.host,
     "--port=".data ++ cfg.port,
     "--user=".data ++ cfg.user,
     "--password=".data ++ cfg.password,
     "--single-transaction".data,
     "--no-tablespaces".data]
  let cmd := if verLt serverVersion (8, 0, 0) then cmd ++ ["--column-statistics=0".data] else cmd
  let cmd :=
    match cfg.defaults_file with
    | some df =>
        (insertAt1 ("--defaults-file=".data ++ df) cmd).filter
          (fun c => !("--password".data.isPrefixOf c))
    | none => cmd
  let cmd := if !verLt serverVersion (8, 0, 13) then cmd ++ compatFlags else cmd
  let cmd :=
    match cfg.database_names with
    | some dbs => cmd ++ ["--databases".data] ++ splitComma dbs
    | none => cmd ++ ["--all-databases".data]
  cmd ++ ["--result-file=".data ++ tempFile]

example :
    findFirstTableMatch ("mysqldump: Table ".data ++ [aposC] ++ "db.Orders".data ++ [aposC]
        ++ "t exist???".data) = none := by decide

example :
    findFirstTableMatch ("mysqldump: Table ".data ++ [aposC] ++ "db.Orders".data ++ tablePat2
        ++ " and Table ".data ++ [aposC] ++ "db.b".data ++ tablePat2) =
      some "db.Orders".data := by decide

example : containsSub libMarker ("err: ".data ++ libMarker ++ "!".data) = true := by decide

example : hasCompatSub (ignoreArg "x.t--routines".data) = true := by decide

example : hasCompatSub (ignoreArg "x.t".data) = false := by decide

example :
    (backupStep "c".data (initState []) ⟨1, libMarker⟩).2 = .compatRetry := by decide

example :
    (backupStep "c".data (initState []) ⟨0, []⟩).2 = .succeeded := by decide

example :
    (backupStep "c".data (initState []) ⟨1, "Table ".data ++ [aposC] ++ "db.T".data
        ++ tablePat2⟩).1.skipped_tables = ["db.t".data] := by decide

/-- State update recording a retry error for a failed attempt that found
no new missing table (core.py lines 181-186). -/
def recordErr (cfgName : Str) (st : LoopState) (r : AttemptResult) : LoopState :=
  { st with
    retry_count := st.retry_count + 1
    retry_errors := st.retry_errors ++
      [attemptError cfgName false (st.retry_count + 1) r.stderr] }

/-- On an unclassified nonzero exit with force never used, the loop
marks force and retries (core.py lines 196-201). -/
theorem backupStep_unknown_noforce (cfgName : Str) (st : LoopState) (r : AttemptResult)
    (hrc : r.returncode ≠ 0) (hm : findFirstTableMatch r.stderr = none)
    (hc : containsSub libMarker r.stderr = false) (huf : st.used_force = false) :
    backupStep cfgName st r =
      ({ recordErr cfgName st r with
         used_force := true
         force_attempts := st.force_attempts + 1 }, .forceStart) := by
  simp [backupStep, recordErr, hrc, hm, hc, huf]

/-- On an unclassified nonzero exit with force already used and fewer
than three force attempts, the loop increments the counter and retries
(core.py lines 203-210). -/
theorem backupStep_unknown_force_lt (cfgName : Str) (st : LoopState) (r : AttemptResult)
    (hrc : r.returncode ≠ 0) (hm : findFirstTableMatch r.stderr = none)
    (hc : containsSub libMarker r.stderr = false) (huf : st.used_force = true)
    (hpos : 0 < st.force_attempts) (hlt : st.force_attempts < 3) :
    backupStep cfgName st r =
      ({ recordErr cfgName st r with
         force_attempts := st.force_attempts + 1 }, .forceContinue) := by
  simp [backupStep, recordErr, hrc, hm, hc, huf, hpos, hlt, Nat.not_eq_zero_of_lt hpos]

/-- On an unclassified nonzero exit after three force attempts, the
loop terminates in failure (core.py lines 211-213). -/
theorem backupStep_unknown_force_max (cfgName : Str) (st : LoopState) (r : AttemptResult)
    (hrc : r.returncode ≠ 0) (hm : findFirstTableMatch r.stderr = none)
    (hc : containsSub libMarker r.stderr = false) (huf : st.used_force = true)
    (hmax : st.force_attempts = 3) :
    backupStep cfgName st r = (recordErr cfgName st r, .failed) := by
  simp [backupStep, recordErr, hrc, hm, hc, huf, hmax]

/-- Claim C2: in a run in which every attempt exits nonzero and no
attempt matches the missing-table pattern or the compatibility marker,
the force flag is applied from the second attempt on, forceAttempts
never exceeds 3 and ends at 3, exactly 3 of the 4 executed attempts
run with force, and the run fails with the last error stream as the
recorded failure text. -/
theorem claim_c2_force_ladder (cfgName : Str) (st0 : LoopState) (r1 r2 r3 r4 : AttemptResult)
    (rest : List AttemptResult) (huf : st0.used_force = false) (hfa : st0.force_attempts = 0)
    (h : ∀ r ∈ [r1, r2, r3, r4], r.returncode ≠ 0 ∧ findFirstTableMatch r.stderr = none ∧
      containsSub libMarker r.stderr = false) :
    (∃ stF, (runLoop cfgName st0 (r1 :: r2 :: r3 :: r4 :: rest)).result = .failed stF r4.stderr ∧
       stF.force_attempts = 3) ∧
    (runLoop cfgName st0 (r1 :: r2 :: r3 :: r4 :: rest)).states.map LoopState.used_force =
      [false, true, true, true, true] ∧
    (∀ s ∈ (runLoop cfgName st0 (r1 :: r2 :: r3 :: r4 :: rest)).states,
      s.force_attempts ≤ 3) ∧
    (((runLoop cfgName st0 (r1 :: r2 :: r3 :: r4 :: rest)).states.dropLast.map
        LoopState.used_force).count true = 3) := by
  obtain ⟨h1rc, h1m, h1c⟩ := h r1 (by simp)
  obtain ⟨h2rc, h2m, h2c⟩ := h r2 (by simp)
  obtain ⟨h3rc, h3m, h3c⟩ := h r3 (by simp)
  obtain ⟨h4rc, h4m, h4c⟩ := h r4 (by simp)
  obtain ⟨s1, e1, s1uf, s1fa⟩ :
      ∃ s, backupStep cfgName st0 r1 = (s, .forceStart) ∧ s.used_force = true ∧
        s.force_attempts = 1 := by
    refine ⟨_, backupStep_unknown_noforce cfgName st0 r1 h1rc h1m h1c huf, ?_, ?_⟩
    · rfl
    · simp [recordErr, hfa]
  obtain ⟨s2, e2, s2uf, s2fa⟩ :
      ∃ s, backupStep cfgName s1 r2 = (s, .forceContinue) ∧ s.used_force = true ∧
        s.force_attempts = 2 := by
    refine ⟨_, backupStep_unknown_force_lt cfgName s1 r2 h2rc h2m h2c s1uf
      (by omega) (by omega), ?_, ?_⟩
    · simp [recordErr, s1uf]
    · simp [recordErr, s1fa]
  obtain ⟨s3, e3, s3uf, s3fa⟩ :
      ∃ s, backupStep cfgName s2 r3 = (s, .forceContinue) ∧ s.used_force = true ∧
        s.force_attempts = 3 := by
    refine ⟨_, backupStep_unknown_force_lt cfgName s2 r3 h3rc h3m h3c s2uf
      (by omega) (by omega), ?_, ?_⟩
    · simp [recordErr, s2uf]
    · simp [recordErr, s2fa]
  obtain ⟨s4, e4, s4uf, s4fa⟩ :
      ∃ s, backupStep cfgName s3 r4 = (s, .failed) ∧ s.used_force = true ∧
        s.force_attempts = 3 := by
    refine ⟨_, backupStep_unknown_force_max cfgName s3 r4 h4rc h4m h4c s3uf s3fa, ?_, ?_⟩
    · simp [recordErr, s3uf]
    · simp [recordErr, s3fa]
  have R : runLoop cfgName st0 (r1 :: r2 :: r3 :: r4 :: rest) =
      ⟨[st0, s1, s2, s3, s4], .failed s4 r4.stderr⟩ := by
    simp only [runLoop, e1, e2, e3, e4]
  rw [R]
  refine ⟨⟨s4, rfl, s4fa⟩, ?_, ?_, ?_⟩
  · simp [huf, s1uf, s2uf, s3uf, s4uf]
  · intro s hs
    simp only [List.mem_cons, List.not_mem_nil, or_false] at hs
    rcases hs with rfl | rfl | rfl | rfl | rfl
    · omega
    · omega
    · omega
    · omega
    · omega
  · simp [List.dropLast, huf, s1uf, s2uf, s3uf]

/-- Witness for claim C2 at a concrete failing run. -/
theorem claim_c2_force_ladder_witness :
    (runLoop "w".data (initState [])
        [⟨1, "boom".data⟩, ⟨1, "boom".data⟩, ⟨1, "boom".data⟩, ⟨1, "boom".data⟩]).states.map
      LoopState.used_force = [false, true, true, true, true] :=
  (claim_c2_force_ladder "w".data (initState []) ⟨1, "boom".data⟩ ⟨1, "boom".data⟩
    ⟨1, "boom".data⟩ ⟨1, "boom".data⟩ [] rfl rfl (by decide)).2.1

/-- Concrete configuration used to exhibit the compatibility-retry
behaviour, with a server version at least 8.0.13 so that the
routine/trigger/event flags are present initially. -/
def cfgLibDemo : DBConfig :=
  ⟨"localhost".data, "3306".data, "root".data, "pw".data, none, some "mydb".data⟩

/-- Initial dump command for `cfgLibDemo`. -/
def cmdLibDemo : List Str :=
  buildCmd cfgLibDemo (8, 0, 20) "mysqldump".data "b.sql".data

/-- Claim C1 (divergence witness): the compatibility transition at
core.py line 174 is guarded only by the presence of the marker in the
error stream, so an iteration whose error stream again contains the
marker after the flags were already removed takes the compatibility
transition once more (and the loop continues without force), instead
of falling through to the force ladder as the specification and the
comment at core.py line 192 state. -/
theorem claim_c1_compat_transition_repeats :
    (backupStep "c".data (initState cmdLibDemo) ⟨1, libMarker⟩).2 = .compatRetry ∧
    (backupStep "c".data (backupStep "c".data (initState cmdLibDemo) ⟨1, libMarker⟩).1
        ⟨1, libMarker⟩).2 = .compatRetry ∧
    (backupStep "c".data (backupStep "c".data (initState cmdLibDemo) ⟨1, libMarker⟩).1
        ⟨1, libMarker⟩).1.used_force = false := by
  decide

/-- Claim C5: on a failing iteration whose error stream matches the
missing-table pattern, only the first matched table is considered:
the skip set gains at most that one table, and when it is new the
command gains exactly its ignore flag and the iteration retries. -/
theorem claim_c5_first_match_only (cfgName : Str) (st : LoopState) (r : AttemptResult)
    (t : Str) (hrc : r.returncode ≠ 0) (hm : findFirstTableMatch r.stderr = some t) :
    ((backupStep cfgName st r).1.skipped_tables =
      if lowerStr t ∈ st.skipped_tables then st.skipped_tables
      else st.skipped_tables ++ [lowerStr t]) ∧
    (lowerStr t ∉ st.skipped_tables →
      (backupStep cfgName st r).1.cmd = st.cmd ++ [ignoreArg (lowerStr t)] ∧
      (backupStep cfgName st r).2 = .tableRetry) := by
  by_cases hmem : lowerStr t ∈ st.skipped_tables
  · refine ⟨?_, fun hn => absurd hmem hn⟩
    simp [backupStep, hrc, hm, hmem,
      apply_ite (fun p : LoopState × StepClass => p.1.skipped_tables),
      apply_ite LoopState.skipped_tables]
  · refine ⟨?_, fun _ => ⟨?_, ?_⟩⟩
    · simp [backupStep, hrc, hm, hmem]
    · simp [backupStep, hrc, hm, hmem]
    · simp [backupStep, hrc, hm, hmem]

/-- Error stream naming two distinct missing tables. -/
def stderrTwoTables : Str :=
  tablePat1 ++ "db.a".data ++ tablePat2 ++ [' '] ++ tablePat1 ++ "db.b".data ++ tablePat2

/-- Witness for claim C5: with two tables named, only `db.a` is added. -/
theorem claim_c5_first_match_only_witness :
    (backupStep "w".data (initState []) ⟨1, stderrTwoTables⟩).1.cmd =
      [] ++ [ignoreArg (lowerStr "db.a".data)] ∧
    (backupStep "w".data (initState []) ⟨1, stderrTwoTables⟩).2 = .tableRetry :=
  (claim_c5_first_match_only "w".data (initState []) ⟨1, stderrTwoTables⟩ "db.a".data
    (by decide) (by decide)).2 (by decide)

/-- Lowercased candidate produced by one loop iteration: the first
regex match when the attempt failed, lowered (core.py lines 153-160). -/
def candList (r : AttemptResult) : List Str :=
  match (if r.returncode ≠ 0 then findFirstTableMatch r.stderr else none) with
  | some t => [lowerStr t]
  | none => []

/-- One step of first-occurrence accumulation: append unless present. -/
def occStep (acc : List Str) (t : Str) : List Str := if t ∈ acc then acc else acc ++ [t]

/-- First-occurrence accumulation over a candidate list. -/
def occFold (acc : List Str) (l : List Str) : List Str := l.foldl occStep acc

/-- Deduplicated candidate list in order of first occurrence. -/
def firstOcc (l : List Str) : List Str := occFold [] l

/-- Candidates considered by the executed iterations of the loop, in
execution order. -/
def execCands (cfgName : Str) (st : LoopState) : List AttemptResult → List Str
  | [] => []
  | r :: rs =>
      let p := backupStep cfgName st r
      match p.2 with
      | .succeeded => candList r
      | .failed => candList r
      | _ => candList r ++ execCands cfgName p.1 rs

theorem occFold_nil (acc : List Str) : occFold acc [] = acc := rfl

theorem occFold_append (acc : List Str) (a b : List Str) :
    occFold acc (a ++ b) = occFold (occFold acc a) b :=
  List.foldl_append _ _ _ _

theorem occFold_extends (l : List Str) : ∀ acc, ∃ u, occFold acc l = acc ++ u := by
  induction l with
  | nil => exact fun acc => ⟨[], by simp [occFold]⟩
  | cons t l ih =>
      intro acc
      have h1 : occFold acc (t :: l) = occFold (occStep acc t) l := rfl
      obtain ⟨u, hu⟩ := ih (occStep acc t)
      by_cases hm : t ∈ acc
      · exact ⟨u, by rw [h1, hu, occStep, if_pos hm]⟩
      · exact ⟨[t] ++ u, by rw [h1, hu, occStep, if_neg hm, List.append_assoc]⟩

theorem occFold_mem (l : List Str) : ∀ acc x, x ∈ occFold acc l → x ∈ acc ∨ x ∈ l := by
  induction l with
  | nil => exact fun acc x h => Or.inl h
  | cons t l ih =>
      intro acc x h
      have h1 : occFold acc (t :: l) = occFold (occStep acc t) l := rfl
      rw [h1] at h
      rcases ih (occStep acc t) x h with h2 | h2
      · by_cases hm : t ∈ acc
        · rw [occStep, if_pos hm] at h2
          exact Or.inl h2
        · rw [occStep, if_neg hm] at h2
          rcases List.mem_append.mp h2 with h3 | h3
          · exact Or.inl h3
          · exact Or.inr (by simp at h3; simp [h3])
      · exact Or.inr (List.mem_cons_of_mem _ h2)

theorem occFold_nodup (l : List Str) : ∀ acc, acc.Nodup → (occFold acc l).Nodup := by
  induction l with
  | nil => exact fun acc h => h
  | cons t l ih =>
      intro acc hacc
      have h1 : occFold acc (t :: l) = occFold (occStep acc t) l := rfl
      rw [h1]
      refine ih (occStep acc t) ?_
      by_cases hm : t ∈ acc
      · rw [occStep, if_pos hm]; exact hacc
      · rw [occStep, if_neg hm]
        simp [List.nodup_append, hm, hacc]

/-- Idempotence of the ASCII lowercase map on characters. -/
theorem toLower_toLower (c : Char) : c.toLower.toLower = c.toLower := by
  by_cases h : c.toNat ≥ 65 ∧ c.toNat ≤ 90
  · have hv : (c.toNat + 32).isValidChar := Or.inl (by omega)
    have ht : (Char.ofNat (c.toNat + 32)).toNat = c.toNat + 32 := by
      unfold Char.ofNat
      rw [dif_pos hv]
      rfl
    have h2 : ¬((Char.ofNat (c.toNat + 32)).toNat ≥ 65 ∧
        (Char.ofNat (c.toNat + 32)).toNat ≤ 90) := by
      rw [ht]; omega
    have e1 : c.toLower = Char.ofNat (c.toNat + 32) := by
      unfold Char.toLower
      exact if_pos h
    have e2 : (Char.ofNat (c.toNat + 32)).toLower = Char.ofNat (c.toNat + 32) := by
      unfold Char.toLower
      exact if_neg h2
    rw [e1, e2]
  · have e1 : c.toLower = c := by
      unfold Char.toLower
      exact if_neg h
    simp only [e1]

/-- Idempotence of the lowercase map on strings. -/
theorem lowerStr_idem (s : Str) : lowerStr (lowerStr s) = lowerStr s := by
  simp only [lowerStr, List.map_map]
  exact List.map_congr_left (fun c _ => toLower_toLower c)

/-- The skip set after one loop iteration is the first-occurrence
extension of the previous skip set by the iteration candidate. -/
theorem backupStep_skipped (cfgName : Str) (st : LoopState) (r : AttemptResult) :
    (backupStep cfgName st r).1.skipped_tables = occFold st.skipped_tables (candList r) := by
  by_cases hrc : r.returncode ≠ 0
  · cases hm : findFirstTableMatch r.stderr with
    | none =>
        simp [backupStep, candList, occFold, hrc, hm,
          apply_ite (fun p : LoopState × StepClass => p.1.skipped_tables),
          apply_ite LoopState.skipped_tables]
    | some t =>
        by_cases hmem : lowerStr t ∈ st.skipped_tables
        · simp [backupStep, candList, occFold, occStep, hrc, hm, hmem,
            apply_ite (fun p : LoopState × StepClass => p.1.skipped_tables),
            apply_ite LoopState.skipped_tables]
        · simp [backupStep, candList, occFold, occStep, hrc, hm, hmem,
            apply_ite (fun p : LoopState × StepClass => p.1.skipped_tables),
            apply_ite LoopState.skipped_tables]
  · simp [backupStep, candList, occFold, hrc,
      apply_ite (fun p : LoopState × StepClass => p.1.skipped_tables),
      apply_ite LoopState.skipped_tables]

/-- The skip set after a pre-flight addition is the first-occurrence
extension by the lowered reported identifier. -/
theorem preflightAdd_skipped (cfgName : Str) (st : LoopState) (t : Str) :
    (preflightAdd cfgName st t).skipped_tables = occStep st.skipped_tables (lowerStr t) := by
  simp [preflightAdd, occStep, apply_ite LoopState.skipped_tables]

/-- The skip set after the pre-flight phase. -/
theorem preflight_skipped (cfgName : Str) (missing : List Str) : ∀ st : LoopState,
    (preflight cfgName st missing).skipped_tables =
      occFold st.skipped_tables (missing.map lowerStr) := by
  induction missing with
  | nil => exact fun st => rfl
  | cons t l ih =>
      intro st
      have h1 : preflight cfgName st (t :: l) = preflight cfgName (preflightAdd cfgName st t) l := rfl
      rw [h1, ih]
      have h2 : occFold st.skipped_tables ((t :: l).map lowerStr) =
          occFold (occStep st.skipped_tables (lowerStr t)) (l.map lowerStr) := rfl
      rw [h2, preflightAdd_skipped]

/-- The skip set in the final state of the loop. -/
theorem runLoop_final_skipped (cfgName : Str) (trace : List AttemptResult) :
    ∀ st : LoopState,
    ((runLoop cfgName st trace).result.state).skipped_tables =
      occFold st.skipped_tables (execCands cfgName st trace) := by
  induction trace with
  | nil => exact fun st => rfl
  | cons r rs ih =>
      intro st
      cases hp : (backupStep cfgName st r).2 with
      | succeeded =>
          simp only [runLoop, execCands, hp, LoopResult.state]
          rw [backupStep_skipped]
      | failed =>
          simp only [runLoop, execCands, hp, LoopResult.state]
          rw [backupStep_skipped]
      | tableRetry =>
          simp only [runLoop, execCands, hp, occFold_append]
          rw [ih, backupStep_skipped]
      | compatRetry =>
          simp only [runLoop, execCands, hp, occFold_append]
          rw [ih, backupStep_skipped]
      | forceStart =>
          simp only [runLoop, execCands, hp, occFold_append]
          rw [ih, backupStep_skipped]
      | forceContinue =>
          simp only [runLoop, execCands, hp, occFold_append]
          rw [ih, backupStep_skipped]
      | fallthrough =>
          simp only [runLoop, execCands, hp, occFold_append]
          rw [ih, backupStep_skipped]

/-- Relation: the second skip set extends the first by appending. -/
def skippedExt (a b : LoopState) : Prop :=
  ∃ u, a.skipped_tables ++ u = b.skipped_tables

theorem skippedExt_backupStep (cfgName : Str) (st : LoopState) (r : AttemptResult) :
    skippedExt st (backupStep cfgName st r).1 := by
  obtain ⟨u, hu⟩ := occFold_extends (candList r) st.skipped_tables
  exact ⟨u, by rw [backupStep_skipped, hu]⟩

theorem skippedExt_preflightAdd (cfgName : Str) (st : LoopState) (t : Str) :
    skippedExt st (preflightAdd cfgName st t) := by
  rw [skippedExt, preflightAdd_skipped, occStep]
  by_cases hm : lowerStr t ∈ st.skipped_tables
  · exact ⟨[], by simp [hm]⟩
  · exact ⟨[lowerStr t], by simp [hm]⟩

theorem scanl_head {α β : Type} (f : β → α → β) (a : β) (l : List α) :
    (List.scanl f a l).head? = some a := by
  cases l <;> simp [List.scanl]

theorem scanl_getLast {α β : Type} (f : β → α → β) (l : List α) :
    ∀ a : β, (List.scanl f a l).getLast? = some (l.foldl f a) := by
  induction l with
  | nil => exact fun a => rfl
  | cons x xs ih =>
      intro a
      rw [List.scanl_cons]
      have h1 := ih (f a x)
      cases hsc : List.scanl f (f a x) xs with
      | nil =>
          have hlen := List.length_scanl (f := f) (f a x) xs
          rw [hsc] at hlen
          simp at hlen
      | cons b bs =>
          rw [hsc] at h1
          simp only [List.singleton_append, List.getLast?_cons_cons, h1]
          simp [List.foldl]

theorem chain_scanl_preflight (cfgName : Str) (missing : List Str) :
    ∀ st : LoopState, List.Chain' skippedExt (missing.scanl (preflightAdd cfgName) st) := by
  induction missing with
  | nil => exact fun st => by simp
  | cons t l ih =>
      intro st
      rw [List.scanl_cons]
      rw [List.singleton_append, List.chain'_cons']
      refine ⟨?_, ih (preflightAdd cfgName st t)⟩
      intro y hy
      rw [scanl_head] at hy
      cases hy
      exact skippedExt_preflightAdd cfgName st t

theorem runLoop_states_head (cfgName : Str) (st : LoopState) (trace : List AttemptResult) :
    (runLoop cfgName st trace).states.head? = some st := by
  cases trace with
  | nil => rfl
  | cons r rs =>
      cases hp : (backupStep cfgName st r).2 <;> simp [runLoop, hp]

theorem chain_runLoop (cfgName : Str) (trace : List AttemptResult) :
    ∀ st : LoopState, List.Chain' skippedExt (runLoop cfgName st trace).states := by
  induction trace with
  | nil => exact fun st => by simp [runLoop]
  | cons r rs ih =>
      intro st
      cases hp : (backupStep cfgName st r).2 <;>
        simp only [runLoop, hp] <;>
        first
        | exact List.chain'_pair.mpr (skippedExt_backupStep cfgName st r)
        | · rw [List.chain'_cons']
            refine ⟨?_, ih (backupStep cfgName st r).1⟩
            intro y hy
            rw [runLoop_states_head] at hy
            cases hy
            exact skippedExt_backupStep cfgName st r

theorem execCands_lowered (cfgName : Str) (trace : List AttemptResult) :
    ∀ st : LoopState, ∀ x ∈ execCands cfgName st trace, ∃ y, x = lowerStr y := by
  induction trace with
  | nil => intro st x hx; simp [execCands] at hx
  | cons r rs ih =>
      intro st x hx
      have hcand : ∀ z ∈ candList r, ∃ y, z = lowerStr y := by
        intro z hz
        rw [candList] at hz
        cases hfm : (if r.returncode ≠ 0 then findFirstTableMatch r.stderr else none) with
        | none => rw [hfm] at hz; simp at hz
        | some t =>
            rw [hfm] at hz
            simp at hz
            exact ⟨t, hz⟩
      cases hp : (backupStep cfgName st r).2 <;>
          simp only [execCands, hp, List.mem_append] at hx <;>
          first
          | exact hcand x hx
          | (rcases hx with hx | hx
             exacts [hcand x hx, ih _ x hx])

/-- Claim C3: throughout a run the skip set only ever grows by
appending (monotonically non-decreasing along every state of the
pre-flight phase and of the retry loop), the final skip set is the
first-occurrence deduplication of the lowered candidates in discovery
order, every entry is lowercase, and the set has no duplicates even
when compared case-insensitively. -/
theorem claim_c3_skip_set_invariants (cfgName : Str) (initCmd : List Str)
    (missing : List Str) (trace : List AttemptResult) :
    List.Chain' skippedExt (fullStates cfgName initCmd missing trace) ∧
    ((fullRunTrace cfgName initCmd missing trace).result.state).skipped_tables =
      firstOcc (missing.map lowerStr ++
        execCands cfgName (preflight cfgName (initState initCmd) missing) trace) ∧
    (∀ x ∈ ((fullRunTrace cfgName initCmd missing trace).result.state).skipped_tables,
      x = lowerStr x) ∧
    (((fullRunTrace cfgName initCmd missing trace).result.state).skipped_tables.map
        lowerStr).Nodup := by
  have hfin : ((fullRunTrace cfgName initCmd missing trace).result.state).skipped_tables =
      firstOcc (missing.map lowerStr ++
        execCands cfgName (preflight cfgName (initState initCmd) missing) trace) := by
    rw [fullRunTrace, runLoop_final_skipped, preflight_skipped, firstOcc, occFold_append]
    rfl
  have hlow : ∀ x ∈ ((fullRunTrace cfgName initCmd missing trace).result.state).skipped_tables,
      x = lowerStr x := by
    intro x hx
    rw [hfin, firstOcc] at hx
    rcases occFold_mem _ _ _ hx with h | h
    · simp at h
    · rcases List.mem_append.mp h with h2 | h2
      · obtain ⟨y, -, hy⟩ := List.mem_map.mp h2
        rw [← hy, lowerStr_idem]
      · obtain ⟨y, hy⟩ := execCands_lowered cfgName trace _ x h2
        rw [hy, lowerStr_idem]
  refine ⟨?_, hfin, hlow, ?_⟩
  · rw [fullStates, List.chain'_append]
    refine ⟨chain_scanl_preflight cfgName missing _, chain_runLoop cfgName trace _, ?_⟩
    intro x hx y hy
    rw [scanl_getLast] at hx
    rw [fullRunTrace, runLoop_states_head] at hy
    cases hx
    cases hy
    exact ⟨[], by simp [preflight]⟩
  · have hnd : (((fullRunTrace cfgName initCmd missing trace).result.state).skipped_tables).Nodup := by
      rw [hfin, firstOcc]
      exact occFold_nodup _ _ (List.nodup_nil)
    have hmap : (((fullRunTrace cfgName initCmd missing trace).result.state).skipped_tables.map
        lowerStr) = ((fullRunTrace cfgName initCmd missing trace).result.state).skipped_tables := by
      have := List.map_congr_left (l := ((fullRunTrace cfgName initCmd missing
        trace).result.state).skipped_tables) (f := lowerStr) (g := id)
        (fun a ha => (hlow a ha).symm)
      simpa using this
    rw [hmap]
    exact hnd

/-- Case analysis of the command after one loop iteration: unchanged,
extended by one ignore flag for a newly skipped table, or filtered by
the compatibility downgrade (which only happens when no new table was
found).  The skip set changes in step with the command. -/
theorem backupStep_cmd_cases (cfgName : Str) (st : LoopState) (r : AttemptResult) :
    ((backupStep cfgName st r).1.cmd = st.cmd ∧
      (backupStep cfgName st r).1.skipped_tables = st.skipped_tables) ∨
    (∃ tl, tl ∉ st.skipped_tables ∧
      (backupStep cfgName st r).1.cmd = st.cmd ++ [ignoreArg tl] ∧
      (backupStep cfgName st r).1.skipped_tables = st.skipped_tables ++ [tl]) ∨
    ((backupStep cfgName st r).1.cmd = st.cmd.filter (fun c => !hasCompatSub c) ∧
      (backupStep cfgName st r).1.skipped_tables = st.skipped_tables) := by
  by_cases hrc : r.returncode ≠ 0
  · cases hm : findFirstTableMatch r.stderr with
    | none =>
        by_cases hcs : containsSub libMarker r.stderr = true
        · refine Or.inr (Or.inr ⟨?_, ?_⟩) <;>
            simp [backupStep, hrc, hm, hcs,
              apply_ite (fun p : LoopState × StepClass => p.1.cmd),
              apply_ite (fun p : LoopState × StepClass => p.1.skipped_tables),
              apply_ite LoopState.cmd, apply_ite LoopState.skipped_tables]
        · refine Or.inl ⟨?_, ?_⟩ <;>
            simp [backupStep, hrc, hm, hcs,
              apply_ite (fun p : LoopState × StepClass => p.1.cmd),
              apply_ite (fun p : LoopState × StepClass => p.1.skipped_tables),
              apply_ite LoopState.cmd, apply_ite LoopState.skipped_tables]
    | some t =>
        by_cases hmem : lowerStr t ∈ st.skipped_tables
        · by_cases hcs : containsSub libMarker r.stderr = true
          · refine Or.inr (Or.inr ⟨?_, ?_⟩) <;>
              simp [backupStep, hrc, hm, hmem, hcs,
                apply_ite (fun p : LoopState × StepClass => p.1.cmd),
                apply_ite (fun p : LoopState × StepClass => p.1.skipped_tables),
                apply_ite LoopState.cmd, apply_ite LoopState.skipped_tables]
          · refine Or.inl ⟨?_, ?_⟩ <;>
              simp [backupStep, hrc, hm, hmem, hcs,
                apply_ite (fun p : LoopState × StepClass => p.1.cmd),
                apply_ite (fun p : LoopState × StepClass => p.1.skipped_tables),
                apply_ite LoopState.cmd, apply_ite LoopState.skipped_tables]
        · refine Or.inr (Or.inl ⟨lowerStr t, hmem, ?_, ?_⟩) <;>
            simp [backupStep, hrc, hm, hmem,
              apply_ite (fun p : LoopState × StepClass => p.1.cmd),
              apply_ite (fun p : LoopState × StepClass => p.1.skipped_tables),
              apply_ite LoopState.cmd, apply_ite LoopState.skipped_tables]
  · refine Or.inl ⟨?_, ?_⟩ <;>
      simp [backupStep, hrc,
        apply_ite (fun p : LoopState × StepClass => p.1.cmd),
        apply_ite (fun p : LoopState × StepClass => p.1.skipped_tables),
        apply_ite LoopState.cmd, apply_ite LoopState.skipped_tables]

/-- Case analysis of one pre-flight addition. -/
theorem preflightAdd_cmd_cases (cfgName : Str) (st : LoopState) (t : Str) :
    ((preflightAdd cfgName st t).cmd = st.cmd ∧
      (preflightAdd cfgName st t).skipped_tables = st.skipped_tables) ∨
    (∃ tl, tl ∉ st.skipped_tables ∧
      (preflightAdd cfgName st t).cmd = st.cmd ++ [ignoreArg tl] ∧
      (preflightAdd cfgName st t).skipped_tables = st.skipped_tables ++ [tl]) := by
  by_cases hm : lowerStr t ∈ st.skipped_tables
  · exact Or.inl (by simp [preflightAdd, hm])
  · exact Or.inr ⟨lowerStr t, hm, by simp [preflightAdd, hm]⟩

/-- The ignore-flag constructor is injective. -/
theorem ignoreArg_inj {a b : Str} (h : ignoreArg a = ignoreArg b) : a = b :=
  List.append_cancel_left h

/-- Invariant tying ignore flags in the command to the skip set:
the flag for `x` occurs at most once, and its presence implies `x`
is in the skip set. -/
def cmdInv (x : Str) (st : LoopState) : Prop :=
  st.cmd.count (ignoreArg x) ≤ 1 ∧ (ignoreArg x ∈ st.cmd → x ∈ st.skipped_tables)

theorem cmdInv_of_cases (x : Str) (st st' : LoopState)
    (hinv : cmdInv x st)
    (h : (st'.cmd = st.cmd ∧ st'.skipped_tables = st.skipped_tables) ∨
      (∃ tl, tl ∉ st.skipped_tables ∧ st'.cmd = st.cmd ++ [ignoreArg tl] ∧
        st'.skipped_tables = st.skipped_tables ++ [tl]) ∨
      (st'.cmd = st.cmd.filter (fun c => !hasCompatSub c) ∧
        st'.skipped_tables = st.skipped_tables)) :
    cmdInv x st' := by
  obtain ⟨hcount, hmem⟩ := hinv
  rcases h with ⟨hc, hs⟩ | ⟨tl, htl, hc, hs⟩ | ⟨hc, hs⟩
  · exact ⟨by rw [hc]; exact hcount, by rw [hc, hs]; exact hmem⟩
  · constructor
    · rw [hc]
      by_cases hx : tl = x
      · subst hx
        have hnot : ignoreArg tl ∉ st.cmd := fun hin => htl (hmem hin)
        have h0 : st.cmd.count (ignoreArg tl) = 0 := List.count_eq_zero.mpr hnot
        rw [List.count_append, h0]
        simp
      · have hne : ignoreArg tl ≠ ignoreArg x := fun hEq => hx (ignoreArg_inj hEq)
        rw [List.count_append]
        simp [List.count_singleton, hne]
        exact hcount
    · rw [hc, hs]
      intro hin
      rcases List.mem_append.mp hin with hin | hin
      · exact List.mem_append_left _ (hmem hin)
      · simp at hin
        have := ignoreArg_inj hin
        subst this
        simp
  · constructor
    · rw [hc]
      exact le_trans (List.Sublist.count_le (List.filter_sublist _) _) hcount
    · rw [hc, hs]
      intro hin
      exact hmem (List.mem_of_mem_filter hin)

theorem cmdInv_backupStep (cfgName x : Str) (st : LoopState) (r : AttemptResult)
    (hinv : cmdInv x st) : cmdInv x (backupStep cfgName st r).1 :=
  cmdInv_of_cases x st _ hinv (backupStep_cmd_cases cfgName st r)

theorem cmdInv_preflightAdd (cfgName x : Str) (st : LoopState) (t : Str)
    (hinv : cmdInv x st) : cmdInv x (preflightAdd cfgName st t) := by
  refine cmdInv_of_cases x st _ hinv ?_
  rcases preflightAdd_cmd_cases cfgName st t with h | h
  · exact Or.inl h
  · exact Or.inr (Or.inl h)

/-- A clean ignore flag (one not containing a compatibility-flag
substring) survives one loop iteration. -/
theorem mem_cmd_backupStep (cfgName x : Str) (st : LoopState) (r : AttemptResult)
    (hclean : hasCompatSub (ignoreArg x) = false)
    (hin : ignoreArg x ∈ st.cmd) : ignoreArg x ∈ (backupStep cfgName st r).1.cmd := by
  rcases backupStep_cmd_cases cfgName st r with ⟨hc, -⟩ | ⟨tl, -, hc, -⟩ | ⟨hc, -⟩
  · rw [hc]; exact hin
  · rw [hc]; exact List.mem_append_left _ hin
  · rw [hc]
    exact List.mem_filter.mpr ⟨hin, by rw [hclean]; rfl⟩

theorem mem_cmd_preflightAdd (cfgName x : Str) (st : LoopState) (t : Str)
    (hin : ignoreArg x ∈ st.cmd) : ignoreArg x ∈ (preflightAdd cfgName st t).cmd := by
  rcases preflightAdd_cmd_cases cfgName st t with ⟨hc, -⟩ | ⟨tl, -, hc, -⟩
  · rw [hc]; exact hin
  · rw [hc]; exact List.mem_append_left _ hin

/-- A property preserved by pre-flight additions holds at every state
of the pre-flight scan. -/
theorem pred_scanl_preflight (cfgName : Str) (P : LoopState → Prop)
    (hstep : ∀ st t, P st → P (preflightAdd cfgName st t)) :
    ∀ (missing : List Str) (st : LoopState), P st →
      ∀ s ∈ missing.scanl (preflightAdd cfgName) st, P s := by
  intro missing
  induction missing with
  | nil => intro st hP s hs; simp at hs; rwa [hs]
  | cons t l ih =>
      intro st hP s hs
      rw [List.scanl_cons, List.singleton_append, List.mem_cons] at hs
      rcases hs with rfl | hs
      · exact hP
      · exact ih (preflightAdd cfgName st t) (hstep st t hP) s hs

/-- A property preserved by pre-flight additions holds after the whole
pre-flight phase. -/
theorem pred_preflight (cfgName : Str) (P : LoopState → Prop)
    (hstep : ∀ st t, P st → P (preflightAdd cfgName st t)) :
    ∀ (missing : List Str) (st : LoopState), P st → P (preflight cfgName st missing) := by
  intro missing
  induction missing with
  | nil => exact fun st hP => hP
  | cons t l ih => exact fun st hP => ih (preflightAdd cfgName st t) (hstep st t hP)

/-- A property preserved by loop iterations holds at every state of
the retry loop. -/
theorem pred_runLoop_states (cfgName : Str) (P : LoopState → Prop)
    (hstep : ∀ st r, P st → P (backupStep cfgName st r).1) :
    ∀ (trace : List AttemptResult) (st : LoopState), P st →
      ∀ s ∈ (runLoop cfgName st trace).states, P s := by
  intro trace
  induction trace with
  | nil => intro st hP s hs; simp [runLoop] at hs; rwa [hs]
  | cons r rs ih =>
      intro st hP s hs
      cases hp : (backupStep cfgName st r).2 <;>
          simp only [runLoop, hp, List.mem_cons, List.not_mem_nil, or_false] at hs <;>
          first
          | (rcases hs with rfl | rfl
             exacts [hP, hstep st r hP])
          | (rcases hs with rfl | hs
             exacts [hP, ih (backupStep cfgName st r).1 (hstep st r hP) s hs])

/-- All loop states of a run starting from an arbitrary state. -/
def fullStatesFrom (cfgName : Str) (st : LoopState) (missing : List Str)
    (trace : List AttemptResult) : List LoopState :=
  missing.scanl (preflightAdd cfgName) st ++
    (runLoop cfgName (preflight cfgName st missing) trace).states

/-- Claim C4 (amended): for a table flag free of the compatibility
substrings, once `--ignore-table=x` is in the command it stays in the
command at every later state of the run; and starting from an initial
command with no ignore flags, every state of the run holds the ignore
flag of any given table at most once. -/
theorem claim_c4_ignore_flag_persistence (cfgName x : Str)
    (hclean : hasCompatSub (ignoreArg x) = false) :
    (∀ (st : LoopState) (missing : List Str) (trace : List AttemptResult),
      ignoreArg x ∈ st.cmd →
      ∀ s ∈ fullStatesFrom cfgName st missing trace, ignoreArg x ∈ s.cmd) ∧
    (∀ (initCmd : List Str) (missing : List Str) (trace : List AttemptResult),
      (∀ y, ignoreArg y ∉ initCmd) →
      ∀ s ∈ fullStatesFrom cfgName (initState initCmd) missing trace,
        s.cmd.count (ignoreArg x) ≤ 1) := by
  constructor
  · intro st missing trace hin s hs
    rcases List.mem_append.mp hs with hs | hs
    · exact pred_scanl_preflight cfgName (fun q => ignoreArg x ∈ q.cmd)
        (fun q t h => mem_cmd_preflightAdd cfgName x q t h) missing st hin s hs
    · refine pred_runLoop_states cfgName (fun q => ignoreArg x ∈ q.cmd)
        (fun q r h => mem_cmd_backupStep cfgName x q r hclean h) trace _ ?_ s hs
      exact pred_preflight cfgName (fun q => ignoreArg x ∈ q.cmd)
        (fun q t h => mem_cmd_preflightAdd cfgName x q t h) missing st hin
  · intro initCmd missing trace h0 s hs
    have hinv0 : cmdInv x (initState initCmd) := by
      refine ⟨?_, fun hin => absurd hin (h0 x)⟩
      have : initCmd.count (ignoreArg x) = 0 := List.count_eq_zero.mpr (h0 x)
      simp [initState, this]
    have hres : cmdInv x s := by
      rcases List.mem_append.mp hs with hs | hs
      · exact pred_scanl_preflight cfgName (cmdInv x)
          (fun q t h => cmdInv_preflightAdd cfgName x q t h) missing _ hinv0 s hs
      · refine pred_runLoop_states cfgName (cmdInv x)
          (fun q r h => cmdInv_backupStep cfgName x q r h) trace _ ?_ s hs
        exact pred_preflight cfgName (cmdInv x)
          (fun q t h => cmdInv_preflightAdd cfgName x q t h) missing _ hinv0
    exact hres.1

/-- Claim C4 counterexample: an ignore flag whose table name contains
the substring `--routines` is appended by the pre-flight validator and
then removed from the command by the substring-based compatibility
downgrade of the next failing iteration. -/
theorem claim_c4_counterexample :
    ignoreArg "x.t--routines".data ∈
      (preflight "c".data (initState cmdLibDemo) ["x.t--routines".data]).cmd ∧
    ignoreArg "x.t--routines".data ∉
      (backupStep "c".data
        (preflight "c".data (initState cmdLibDemo) ["x.t--routines".data])
        ⟨1, libMarker⟩).1.cmd := by
  decide

/-- Witness for the amended claim C4 at a concrete clean table. -/
theorem claim_c4_ignore_flag_persistence_witness :
    ignoreArg "x.t".data ∈
      (backupStep "c".data (preflight "c".data (initState cmdLibDemo) ["x.t".data])
        ⟨1, libMarker⟩).1.cmd :=
  (claim_c4_ignore_flag_persistence "c".data "x.t".data (by decide)).1
    (preflight "c".data (initState cmdLibDemo) ["x.t".data]) [] [⟨1, libMarker⟩]
    (by decide)
    (backupStep "c".data (preflight "c".data (initState cmdLibDemo) ["x.t".data])
      ⟨1, libMarker⟩).1
    (by decide)

/-- Witness for claim C3 at a concrete run: two pre-flight reports
that differ only by case collapse to one entry, and a retry iteration
adds one more. -/
theorem claim_c3_skip_set_invariants_witness :
    ((fullRunTrace "w".data [] ["DB.T1".data, "db.t1".data]
        [⟨1, tablePat1 ++ "db.t2".data ++ tablePat2⟩]).result.state).skipped_tables =
      firstOcc (["DB.T1".data, "db.t1".data].map lowerStr ++
        execCands "w".data (preflight "w".data (initState []) ["DB.T1".data, "db.t1".data])
          [⟨1, tablePat1 ++ "db.t2".data ++ tablePat2⟩]) :=
  (claim_c3_skip_set_invariants "w".data [] ["DB.T1".data, "db.t1".data]
    [⟨1, tablePat1 ++ "db.t2".data ++ tablePat2⟩]).2.1

/-- Fields of the per-configuration status record persisted by
`save_backup_status` (utils/status.py lines 29-46) that the claims
observe.  Timestamps are carried opaquely by the caller and are not
modelled as record fields here. -/
structure StatusRecord where
  success : Bool
  running : Bool
  message : Str
  backup_file : Option Str
  skipped_tables : List Str
  retry_errors : List Str
deriving Repr

/-- Failure message of core.py lines 223-224; an empty error stream is
replaced by the unknown-error text by Python truthiness. -/
def failureMsg (cfgName lastStderr : Str) : Str :=
  '[' :: cfgName ++ "] 备份失败！错误信息：".data ++
    (if lastStderr.isEmpty then "未知错误".data else lastStderr)

/-- Message of core.py line 273 for a missing or empty artifact. -/
def emptyArtifactMsg (cfgName : Str) : Str :=
  '[' :: cfgName ++ "] 备份文件创建失败或文件为空".data

/-- Success message of core.py lines 285-290, distinguishing partial
from full success.  The file-size figure of the source message is a
floating-point rendering and is omitted from the model. -/
def successMsg (cfgName backupFile : Str) (skipped : List Str) : Str :=
  '[' :: cfgName ++ "] 备份".data ++
    (if skipped.isEmpty then "完全成功".data else "部分成功".data) ++
    [':', ' '] ++ backupFile

/-- Terminal outcome of `perform_backup_for_config` after the retry
loop (core.py lines 220-305): the returned artifact path (or none) and
the last status record saved.  The filesystem state after compression
is supplied as the pair `(artifactPresent, artifactSize)` observed by
the validation at lines 271-272.  Returns `none` when the supplied
attempt sequence ended before the loop reached a terminal state. -/
def performBackupOutcome (cfgName backupFile : Str) (initCmd : List Str)
    (missing : List Str) (trace : List AttemptResult)
    (artifactPresent : Bool) (artifactSize : Nat) :
    Option (Option Str × StatusRecord) :=
  match (fullRunTrace cfgName initCmd missing trace).result with
  | .exhausted _ => none
  | .failed stF lastStderr =>
      some (none,
        ⟨false, false, failureMsg cfgName lastStderr, none,
         stF.skipped_tables, stF.retry_errors⟩)
  | .succeeded stF =>
      if !artifactPresent || artifactSize == 0 then
        some (none,
          ⟨false, false, emptyArtifactMsg cfgName, none,
           stF.skipped_tables, stF.retry_errors⟩)
      else
        some (some backupFile,
          ⟨true, false, successMsg cfgName backupFile stF.skipped_tables,
           some backupFile, stF.skipped_tables, stF.retry_errors⟩)

/-- Claim C7: if the dump loop succeeded but the final artifact is
missing or empty, the run records a failure (not a success), with the
running flag cleared, and returns no artifact path. -/
theorem claim_c7_empty_artifact (cfgName backupFile : Str) (initCmd : List Str)
    (missing : List Str) (trace : List AttemptResult)
    (artifactPresent : Bool) (artifactSize : Nat)
    (hsucc : ∃ stF, (fullRunTrace cfgName initCmd missing trace).result = .succeeded stF)
    (hbad : artifactPresent = false ∨ artifactSize = 0) :
    ∃ rec, performBackupOutcome cfgName backupFile initCmd missing trace
        artifactPresent artifactSize = some (none, rec) ∧
      rec.success = false ∧ rec.running = false := by
  obtain ⟨stF, hstF⟩ := hsucc
  refine ⟨⟨false, false, emptyArtifactMsg cfgName, none,
    stF.skipped_tables, stF.retry_errors⟩, ?_, rfl, rfl⟩
  rw [performBackupOutcome, hstF]
  rcases hbad with h | h <;> simp [h]

/-- Witness for claim C7: a clean exit-code-zero run whose compressed
artifact has size zero. -/
theorem claim_c7_empty_artifact_witness :
    ∃ rec, performBackupOutcome "w".data "b.sql.gz".data [] [] [⟨0, []⟩] true 0 =
        some (none, rec) ∧ rec.success = false ∧ rec.running = false :=
  claim_c7_empty_artifact "w".data "b.sql.gz".data [] [] [⟨0, []⟩] true 0
    ⟨((fullRunTrace "w".data [] [] [⟨0, []⟩]).result.state), by decide⟩ (Or.inr rfl)

/-- Status record written by the exception handler of
`perform_backup_for_config` (core.py lines 354-369): failed, not
running, with the skip set and retry errors current at the time of
the exception. -/
def exceptionRecord (cfgName e : Str) (skipped retryErrs : List Str) : StatusRecord :=
  ⟨false, false, '[' :: cfgName ++ "] 备份过程中发生异常: ".data ++ e, none,
   skipped, retryErrs⟩

/-- Run boundary of `perform_backup_for_config`: the try body either
returns a terminal outcome or raises; the handler records a failed,
non-running status and returns no path (core.py lines 46 and
354-369).  Collaborator calls inside the handler are modelled as
total. -/
def performBackupBoundary (cfgName : Str) (skipped retryErrs : List Str)
    (runBody : Except Str (Option Str × StatusRecord)) : Option Str × StatusRecord :=
  match runBody with
  | .ok res => res
  | .error e => (none, exceptionRecord cfgName e skipped retryErrs)

/-- The entry point `process_config` (core.py lines 417-438): runs the
backup for one configuration, runs retention cleanup when an artifact
was produced, and catches any exception, returning no path instead of
re-raising.  `cleanupBody` is the observable behaviour of the cleanup
collaborator, allowed to raise. -/
def process_config (cfgName : Str) (skipped retryErrs : List Str)
    (runBody : Except Str (Option Str × StatusRecord))
    (cleanupBody : Except Str (List Str)) : Except Str (Option Str) :=
  let inner : Except Str (Option Str) := do
    let bf := performBackupBoundary cfgName skipped retryErrs runBody
    match bf.1 with
    | some f => do
        let _ ← cleanupBody
        pure (some f)
    | none => pure none
  match inner with
  | .ok v => .ok v
  | .error _ => .ok none

/-- Claim C9: the entry point that runs one configuration never
propagates an exception (it always returns a terminal value), and
when the run body raises, the run boundary returns no artifact path
and records a failed, non-running status. -/
theorem claim_c9_run_boundary (cfgName : Str) (skipped retryErrs : List Str)
    (runBody : Except Str (Option Str × StatusRecord))
    (cleanupBody : Except Str (List Str)) :
    (∃ v, process_config cfgName skipped retryErrs runBody cleanupBody = .ok v) ∧
    (∀ e, runBody = .error e →
      performBackupBoundary cfgName skipped retryErrs runBody =
        (none, exceptionRecord cfgName e skipped retryErrs) ∧
      (exceptionRecord cfgName e skipped retryErrs).success = false ∧
      (exceptionRecord cfgName e skipped retryErrs).running = false) := by
  constructor
  · rw [process_config]
    rcases hb : (performBackupBoundary cfgName skipped retryErrs runBody).1 with _ | f
    · exact ⟨none, by simp [hb, pure, Except.pure]⟩
    · rcases hc : cleanupBody with e | l
      · exact ⟨none, by simp [hb, hc, Bind.bind, Except.bind]⟩
      · exact ⟨some f, by simp [hb, hc, Bind.bind, Except.bind, pure, Except.pure]⟩
  · intro e he
    exact ⟨by rw [he]; rfl, rfl, rfl⟩

/-- Witness for claim C9: a run body that raises. -/
theorem claim_c9_run_boundary_witness :
    performBackupBoundary "w".data [] [] (.error "ssh down".data) =
      (none, exceptionRecord "w".data "ssh down".data [] []) ∧
    (exceptionRecord "w".data "ssh down".data [] []).success = false ∧
    (exceptionRecord "w".data "ssh down".data [] []).running = false :=
  (claim_c9_run_boundary "w".data [] [] (.error "ssh down".data) (.ok [])).2
    "ssh down".data rfl

/-- JSON values stored in a status file (the subset the status module
reads and writes). -/
inductive JVal where
  | null
  | jbool (b : Bool)
  | jstr (s : Str)
  | jnum (n : Int)
  | jarr (l : List JVal)
deriving Repr

instance : Inhabited JVal := ⟨JVal.null⟩

/-- Defaults filled in by `load_backup_status`
(utils/status.py lines 61-74), in source order. -/
def statusDefaults : List (Str × JVal) :=
  [("skipped_tables".data, .jarr []),
   ("retry_errors".data, .jarr []),
   ("running".data, .jbool false),
   ("start_time".data, .null),
   ("end_time".data, .null),
   ("mail_sent_time".data, .null)]

/-- Python `if k not in data: data[k] = v` on a JSON object modelled
as an ordered association list (a new key is appended at the end). -/
def setDefault (d : List (Str × JVal)) (k : Str) (v : JVal) : List (Str × JVal) :=
  if (d.lookup k).isSome then d else d ++ [(k, v)]

/-- `load_backup_status` (utils/status.py lines 52-77).  The stored
file is modelled by `none` when absent, `some none` when present but
unreadable or not parseable as JSON (the bare `except` returns
`None`), and `some (some data)` for a parsed JSON object. -/
def load_backup_status (file : Option (Option (List (Str × JVal)))) :
    Option (List (Str × JVal)) :=
  match file with
  | none => none
  | some none => none
  | some (some data) =>
      some (statusDefaults.foldl (fun d kv => setDefault d kv.1 kv.2) data)

theorem lookup_isSome_append (k : Str) (d e : List (Str × JVal))
    (h : (d.lookup k).isSome = true) : ((d ++ e).lookup k).isSome = true := by
  induction d with
  | nil => simp [List.lookup] at h
  | cons kv rest ih =>
      cases hkk : (k == kv.1) with
      | true => simp [List.lookup, hkk]
      | false =>
          simp only [List.lookup, hkk] at h
          simpa [List.lookup, hkk] using ih h

theorem lookup_isSome_setDefault_same (d : List (Str × JVal)) (k : Str) (v : JVal) :
    ((setDefault d k v).lookup k).isSome = true := by
  rw [setDefault]
  cases h : (d.lookup k).isSome with
  | true => simp [h]
  | false =>
      simp only [h, Bool.false_eq_true, if_false]
      induction d with
      | nil => simp [List.lookup]
      | cons kv rest ih =>
          cases hkk : (k == kv.1) with
          | true => simp [List.lookup, hkk]
          | false =>
              simp only [List.lookup, hkk, Option.isSome] at h
              simp only [List.cons_append, List.lookup, hkk]
              exact ih h

theorem lookup_isSome_setDefault_mono (d : List (Str × JVal)) (k k2 : Str) (v : JVal)
    (h : (d.lookup k).isSome = true) :
    ((setDefault d k2 v).lookup k).isSome = true := by
  rw [setDefault]
  cases h2 : (d.lookup k2).isSome with
  | true => simp [h2, h]
  | false =>
      simp only [h2, Bool.false_eq_true, if_false]
      exact lookup_isSome_append k d _ h

theorem lookup_isSome_foldl_mono (defs : List (Str × JVal)) :
    ∀ (d : List (Str × JVal)) (k : Str), (d.lookup k).isSome = true →
      ((defs.foldl (fun d kv => setDefault d kv.1 kv.2) d).lookup k).isSome = true := by
  induction defs with
  | nil => exact fun d k h => h
  | cons kv rest ih =>
      intro d k h
      exact ih (setDefault d kv.1 kv.2) k (lookup_isSome_setDefault_mono d k kv.1 kv.2 h)

theorem lookup_isSome_foldl_defaults (defs : List (Str × JVal)) :
    ∀ (d : List (Str × JVal)), ∀ kv ∈ defs,
      ((defs.foldl (fun d kv => setDefault d kv.1 kv.2) d).lookup kv.1).isSome = true := by
  induction defs with
  | nil => intro d kv h; simp at h
  | cons kv0 rest ih =>
      intro d kv h
      rcases List.mem_cons.mp h with rfl | h
      · exact lookup_isSome_foldl_mono rest (setDefault d kv.1 kv.2) kv.1
          (lookup_isSome_setDefault_same d kv.1 kv.2)
      · exact ih (setDefault d kv0.1 kv0.2) kv h

/-- Claim C10: `load_backup_status` is total; it returns none exactly
when the status file is absent or unreadable, and any record it
returns has all six extended fields present (defaulted when missing
from the stored data). -/
theorem claim_c10_load_status (file : Option (Option (List (Str × JVal)))) :
    (load_backup_status file = none ↔ file = none ∨ file = some none) ∧
    (∀ d, load_backup_status file = some d →
      ∀ k ∈ statusDefaults.map Prod.fst, (d.lookup k).isSome = true) := by
  match file with
  | none => exact ⟨by simp [load_backup_status], by simp [load_backup_status]⟩
  | some none => exact ⟨by simp [load_backup_status], by simp [load_backup_status]⟩
  | some (some data) =>
      constructor
      · simp [load_backup_status]
      · intro d hd k hk
        rw [load_backup_status] at hd
        obtain rfl : statusDefaults.foldl (fun d kv => setDefault d kv.1 kv.2) data = d :=
          Option.some.inj hd
        obtain ⟨kv, hkv, rfl⟩ := List.mem_map.mp hk
        exact lookup_isSome_foldl_defaults statusDefaults data kv hkv

/-- Witness for claim C10 on a legacy record missing every extended
field. -/
theorem claim_c10_load_status_witness :
    ∀ k ∈ statusDefaults.map Prod.fst,
      ((([("success".data, JVal.jbool true)] ++ statusDefaults).lookup k)).isSome = true :=
  (claim_c10_load_status (some (some [("success".data, JVal.jbool true)]))).2
    ([("success".data, JVal.jbool true)] ++ statusDefaults) (by rfl)

/-- A file in a backup directory: name and creation time, the two
attributes `clean_old_backups_for_config` reads.  Times are modelled
as integer seconds. -/
structure BackupFile where
  name : Str
  ctime : Int
deriving DecidableEq, Repr

/-- Retention cleanup for one configuration (cleanup.py lines 9-40):
delete, and report, every file in the directory whose name starts
with `backup_<configName>`, ends with `.sql.gz`, and whose creation
time is before `now` minus the configured number of days. -/
def clean_old_backups_for_config (configName : Str) (dir : List BackupFile)
    (now : Int) (daysToKeep : Nat) : List Str :=
  (dir.filter (fun f =>
      ("backup_".data ++ configName).isPrefixOf f.name &&
      ".sql.gz".data.isSuffixOf f.name &&
      decide (f.ctime < now - daysToKeep * 86400))).map BackupFile.name

/-- Artifact naming pattern stated by the specification,
`backup_<configName>_<databases>_<timestamp>.sql.gz`: written as a
second definition following the words of the spec, to be compared
with the filter used by the code. -/
def specBackupPattern (configName fname : Str) : Bool :=
  ("backup_".data ++ configName ++ "_".data).isPrefixOf fname &&
    ".sql.gz".data.isSuffixOf fname

/-- Claim C8 counterexample: cleanup for configuration `a` deletes an
expired file that does not match the spec pattern for `a` — it is an
artifact of the distinct configuration `ab`, whose name happens to
extend `a`. -/
theorem claim_c8_counterexample :
    clean_old_backups_for_config "a".data
        [⟨"backup_ab_db_2020-01-01_00-00-00.sql.gz".data, 0⟩] 1000000000 7 =
      ["backup_ab_db_2020-01-01_00-00-00.sql.gz".data] ∧
    specBackupPattern "a".data "backup_ab_db_2020-01-01_00-00-00.sql.gz".data = false ∧
    specBackupPattern "ab".data "backup_ab_db_2020-01-01_00-00-00.sql.gz".data = true := by
  decide

theorem isPrefixOf_of_append_isPrefixOf {a b l : Str}
    (h : (a ++ b).isPrefixOf l = true) : a.isPrefixOf l = true := by
  rw [List.isPrefixOf_iff_prefix] at h ⊢
  exact ((a.prefix_append b).trans h)

/-- Claim C8 (amended): cleanup deletes exactly the expired files
whose names start with `backup_<configName>` and end with `.sql.gz`;
in particular every expired file matching the spec naming pattern for
the configuration is deleted, and a directory with no expired files
loses nothing.  (Deleting only files of this configuration fails: see
the counterexample, a prefix-sharing configuration name.) -/
theorem claim_c8_cleanup_behaviour (configName : Str) (dir : List BackupFile)
    (now : Int) (daysToKeep : Nat) :
    (∀ f ∈ dir, ("backup_".data ++ configName).isPrefixOf f.name = true →
      ".sql.gz".data.isSuffixOf f.name = true → f.ctime < now - daysToKeep * 86400 →
      f.name ∈ clean_old_backups_for_config configName dir now daysToKeep) ∧
    (∀ n ∈ clean_old_backups_for_config configName dir now daysToKeep,
      ∃ f ∈ dir, f.name = n ∧ ("backup_".data ++ configName).isPrefixOf f.name = true ∧
        ".sql.gz".data.isSuffixOf f.name = true ∧ f.ctime < now - daysToKeep * 86400) ∧
    (∀ f ∈ dir, specBackupPattern configName f.name = true →
      f.ctime < now - daysToKeep * 86400 →
      f.name ∈ clean_old_backups_for_config configName dir now daysToKeep) ∧
    ((∀ f ∈ dir, ¬ f.ctime < now - daysToKeep * 86400) →
      clean_old_backups_for_config configName dir now daysToKeep = []) := by
  refine ⟨?_, ?_, ?_, ?_⟩
  · intro f hf h1 h2 h3
    rw [clean_old_backups_for_config]
    refine List.mem_map.mpr ⟨f, List.mem_filter.mpr ⟨hf, ?_⟩, rfl⟩
    rw [Bool.and_eq_true, Bool.and_eq_true]
    exact ⟨⟨h1, h2⟩, decide_eq_true h3⟩
  · intro n hn
    rw [clean_old_backups_for_config] at hn
    obtain ⟨f, hf, rfl⟩ := List.mem_map.mp hn
    have hf2 := List.mem_filter.mp hf
    have hc := hf2.2
    rw [Bool.and_eq_true, Bool.and_eq_true] at hc
    exact ⟨f, hf2.1, rfl, hc.1.1, hc.1.2, of_decide_eq_true hc.2⟩
  · intro f hf hpat h3
    rw [specBackupPattern, Bool.and_eq_true] at hpat
    rw [clean_old_backups_for_config]
    refine List.mem_map.mpr ⟨f, List.mem_filter.mpr ⟨hf, ?_⟩, rfl⟩
    have h1 : ("backup_".data ++ configName).isPrefixOf f.name = true := by
      have h4 := hpat.1
      rw [List.append_assoc] at h4
      exact isPrefixOf_of_append_isPrefixOf h4
    rw [Bool.and_eq_true, Bool.and_eq_true]
    exact ⟨⟨h1, hpat.2⟩, decide_eq_true h3⟩
  · intro hnone
    rw [clean_old_backups_for_config]
    have : dir.filter (fun f =>
        ("backup_".data ++ configName).isPrefixOf f.name &&
        ".sql.gz".data.isSuffixOf f.name &&
        decide (f.ctime < now - daysToKeep * 86400)) = [] := by
      rw [List.filter_eq_nil_iff]
      intro f hf
      simp [hnone f hf]
    rw [this]
    rfl

/-- Witness for the amended claim C8: an expired artifact of the
configuration itself is deleted. -/
theorem claim_c8_cleanup_behaviour_witness :
    "backup_a_db_2020-01-01_00-00-00.sql.gz".data ∈
      clean_old_backups_for_config "a".data
        [⟨"backup_a_db_2020-01-01_00-00-00.sql.gz".data, 0⟩] 1000000000 7 :=
  (claim_c8_cleanup_behaviour "a".data
      [⟨"backup_a_db_2020-01-01_00-00-00.sql.gz".data, 0⟩] 1000000000 7).2.2.1
    ⟨"backup_a_db_2020-01-01_00-00-00.sql.gz".data, 0⟩ (by decide) (by decide) (by decide)

/-- Lowercase hexadecimal digit character for a value below 16
(Python `%04x` formatting as used by `json.dumps` escapes). -/
def hexDigitChar (n : Nat) : Char :=
  if n < 10 then Char.ofNat (48 + n) else Char.ofNat (87 + n)

/-- Escape of one character as performed by `json.dumps` with
`ensure_ascii=False`: quote, backslash and the shorthand control
characters get two-character escapes, the remaining control
characters below 0x20 get `\u00..` escapes, every other character is
emitted unchanged. -/
def escapeChar (c : Char) : Str :=
  if c == dquote then [bslash, dquote]
  else if c == bslash then [bslash, bslash]
  else if c == '\n' then [bslash, 'n']
  else if c == '\t' then [bslash, 't']
  else if c == '\r' then [bslash, 'r']
  else if c == Char.ofNat 8 then [bslash, 'b']
  else if c == Char.ofNat 12 then [bslash, 'f']
  else if c.toNat < 32 then
    [bslash, 'u', '0', '0', hexDigitChar (c.toNat / 16), hexDigitChar (c.toNat % 16)]
  else [c]

/-- Escape of a whole string. -/
def escStr (s : Str) : Str := (s.map escapeChar).flatten

/-- A JSON string literal. -/
def quoteStr (s : Str) : Str := dquote :: (escStr s ++ [dquote])

/-- One `"key": "value"` line of `json.dumps(..., indent=2)`,
including its two-space indent. -/
def dumpEntry (kv : Str × Str) : Str :=
  ' ' :: ' ' :: (quoteStr kv.1 ++ ':' :: ' ' :: quoteStr kv.2)

/-- The entry lines of `json.dumps(..., indent=2)`, separated by a
comma and a newline. -/
def entryBlock : List (Str × Str) → Str
  | [] => []
  | kv :: rest =>
      match rest with
      | [] => dumpEntry kv
      | _ :: _ => dumpEntry kv ++ ',' :: '\n' :: entryBlock rest

/-- `json.dumps(db_info, indent=2, ensure_ascii=False)` for a
string-to-string dictionary, modelled as an ordered association
list. -/
def jsonDumps : List (Str × Str) → Str
  | [] => [lbrace, rbrace]
  | kvs => lbrace :: '\n' :: (entryBlock kvs ++ ['\n', rbrace])

/-- Start marker line written by `write_db_info_header`
(db_info.py lines 71-75). -/
def startMarker : Str := "/* START DATABASE PARAMETERS\n".data

/-- End marker matched by `read_db_info_header` (db_info.py line 89). -/
def endMarker : Str := "\nEND DATABASE PARAMETERS */".data

/-- `write_db_info_header` (db_info.py lines 65-76): the header block
prepended to the dump text. -/
def write_db_info_header (db_info : List (Str × Str)) : Str :=
  startMarker ++ jsonDumps db_info ++ endMarker ++ ['\n', '\n']

/-- JSON whitespace. -/
def isJsonWs (c : Char) : Bool := c == ' ' || c == '\t' || c == '\n' || c == '\r'

/-- Skip leading JSON whitespace. -/
def skipWs (s : Str) : Str := s.dropWhile isJsonWs

/-- Hexadecimal digit value. -/
def hexVal (c : Char) : Option Nat :=
  if '0' ≤ c ∧ c ≤ '9' then some (c.toNat - 48)
  else if 'a' ≤ c ∧ c ≤ 'f' then some (c.toNat - 87)
  else if 'A' ≤ c ∧ c ≤ 'F' then some (c.toNat - 55)
  else none

/-- Single-character JSON escapes accepted after a backslash. -/
def unescapeChar (e : Char) : Option Char :=
  if e == dquote then some dquote
  else if e == bslash then some bslash
  else if e == '/' then some '/'
  else if e == 'n' then some '\n'
  else if e == 't' then some '\t'
  else if e == 'r' then some '\r'
  else if e == 'b' then some (Char.ofNat 8)
  else if e == 'f' then some (Char.ofNat 12)
  else none

/-- Body of a JSON string literal after the opening quote, following
the strict `json.loads` string grammar on the sublanguage produced by
`json.dumps` on string dictionaries: bare control characters are
rejected, escapes are decoded, the closing quote ends the literal. -/
def parseStrBody : Str → Option (Str × Str)
  | [] => none
  | c :: rest =>
      if c == dquote then some ([], rest)
      else if c == bslash then
        match rest with
        | [] => none
        | e :: rest2 =>
            if e == 'u' then
              match rest2 with
              | h1 :: h2 :: h3 :: h4 :: rest3 =>
                  match hexVal h1, hexVal h2, hexVal h3, hexVal h4 with
                  | some a, some b, some c2, some d =>
                      match parseStrBody rest3 with
                      | some (s, r) =>
                          some (Char.ofNat (4096 * a + 256 * b + 16 * c2 + d) :: s, r)
                      | none => none
                  | _, _, _, _ => none
              | _ => none
            else
              match unescapeChar e with
              | some ch =>
                  match parseStrBody rest2 with
                  | some (s, r) => some (ch :: s, r)
                  | none => none
              | none => none
      else if c.toNat < 32 then none
      else
        match parseStrBody rest with
        | some (s, r) => some (c :: s, r)
        | none => none

/-- A JSON string literal, allowing leading whitespace. -/
def parseJString (s : Str) : Option (Str × Str) :=
  match skipWs s with
  | c :: rest => if c == dquote then parseStrBody rest else none
  | [] => none

/-- One `"key": "value"` pair. -/
def parseEntry (s : Str) : Option ((Str × Str) × Str) :=
  match parseJString s with
  | none => none
  | some (k, r1) =>
      match skipWs r1 with
      | c :: r2 =>
          if c == ':' then
            match parseJString r2 with
            | none => none
            | some (v, r3) => some ((k, v), r3)
          else none
      | [] => none

/-- The pairs of a nonempty JSON object after its opening brace,
fuelled by an upper bound on the number of entries. -/
def parseEntriesAux : Nat → Str → Option (List (Str × Str) × Str)
  | 0, _ => none
  | fuel + 1, s =>
      match parseEntry s with
      | none => none
      | some (kv, r) =>
          match skipWs r with
          | c :: r2 =>
              if c == ',' then
                match parseEntriesAux fuel r2 with
                | some (rest, r3) => some (kv :: rest, r3)
                | none => none
              else if c == rbrace then some ([kv], r2)
              else none
          | [] => none

/-- `json.loads` restricted to objects whose values are strings (the
language produced by `json.dumps` on the variables dictionary);
any other input is a parse failure, which `read_db_info_header`
turns into an empty result. -/
def jsonLoadsObj (s : Str) : Option (List (Str × Str)) :=
  match skipWs s with
  | c :: r =>
      if c == lbrace then
        match skipWs r with
        | c2 :: r2 =>
            if c2 == rbrace then
              if (skipWs r2).isEmpty then some [] else none
            else
              match parseEntriesAux (s.length + 1) r with
              | some (kvs, r3) => if (skipWs r3).isEmpty then some kvs else none
              | none => none
        | [] => none
      else none
  | [] => none

/-- First occurrence split: `splitOnFirst m s = some (pre, post)` when
`s = pre ++ m ++ post` at the leftmost occurrence of `m`. -/
def splitOnFirst (marker : Str) : Str → Option (Str × Str)
  | [] => if marker.isEmpty then some ([], []) else none
  | c :: cs =>
      if marker.isPrefixOf (c :: cs) then some ([], (c :: cs).drop marker.length)
      else
        match splitOnFirst marker cs with
        | some (pre, post) => some (c :: pre, post)
        | none => none

/-- The lazy group of `re.search(r'/\* START DATABASE PARAMETERS\n(.*?)\nEND DATABASE PARAMETERS \*/', content, re.DOTALL)`:
the text between the leftmost start marker that is followed by an end
marker and the first end marker after it. -/
def regexExtract : Str → Option Str
  | [] => none
  | c :: cs =>
      if startMarker.isPrefixOf (c :: cs) then
        match splitOnFirst endMarker ((c :: cs).drop startMarker.length) with
        | some (payload, _) => some payload
        | none => regexExtract cs
      else regexExtract cs

/-- A stored artifact: the byte stream of the file, known either raw
or gzip-compressed.  Decompression is the gzip library contract, so
the readable text is carried directly. -/
structure Artifact where
  gz : Bool
  text : Str

/-- `read_db_info_header` (db_info.py lines 78-96): read the first
4096 characters (decompressing first when the name ends in `.gz`),
extract the lazy regex group between the markers, parse it as JSON;
any failure yields the empty dictionary. -/
def read_db_info_header (a : Artifact) : List (Str × Str) :=
  match regexExtract (a.text.take 4096) with
  | some payload => (jsonLoadsObj payload).getD []
  | none => []

example : jsonDumps [] = [lbrace, rbrace] := by decide

example : jsonLoadsObj (jsonDumps []) = some [] := by decide

example :
    jsonLoadsObj (jsonDumps [("k".data, "v".data)]) = some [("k".data, "v".data)] := by
  decide

example :
    jsonLoadsObj (jsonDumps [("a b".data, [dquote, bslash, '\n', Char.ofNat 1]),
        ("k2".data, "中文".data)]) =
      some [("a b".data, [dquote, bslash, '\n', Char.ofNat 1]), ("k2".data, "中文".data)] := by
  decide

example :
    read_db_info_header ⟨true, write_db_info_header [("k".data, "v".data)] ++ "DUMP".data⟩ =
      [("k".data, "v".data)] := by decide

theorem escStr_nil : escStr [] = [] := rfl

theorem escStr_cons (c : Char) (s : Str) : escStr (c :: s) = escapeChar c ++ escStr s := by
  simp [escStr]

theorem hexVal_hexDigitChar (m : Nat) (h : m < 16) : hexVal (hexDigitChar m) = some m := by
  interval_cases m <;> decide

/-- Parsing a string body inverts escaping: the escaped text followed
by a closing quote parses back to the original text. -/
theorem parseStrBody_escStr (s : Str) :
    ∀ rest, parseStrBody (escStr s ++ dquote :: rest) = some (s, rest) := by
  induction s with
  | nil =>
      intro rest
      rw [escStr_nil, List.nil_append, parseStrBody.eq_def]
      simp +decide
  | cons c s ih =>
      intro rest
      rw [escStr_cons, List.append_assoc]
      by_cases h1 : c = dquote
      · subst h1
        have hesc : escapeChar dquote = [bslash, dquote] := by simp +decide [escapeChar]
        rw [hesc, List.cons_append, List.cons_append, List.nil_append, parseStrBody.eq_def]
        simp +decide [unescapeChar, ih]
      · by_cases h2 : c = bslash
        · subst h2
          have hesc : escapeChar bslash = [bslash, bslash] := by simp +decide [escapeChar]
          rw [hesc, List.cons_append, List.cons_append, List.nil_append, parseStrBody.eq_def]
          simp +decide [unescapeChar, ih]
        · by_cases h3 : c = '\n'
          · subst h3
            have hesc : escapeChar '\n' = [bslash, 'n'] := by simp +decide [escapeChar]
            rw [hesc, List.cons_append, List.cons_append, List.nil_append, parseStrBody.eq_def]
            simp +decide [unescapeChar, ih]
          · by_cases h4 : c = '\t'
            · subst h4
              have hesc : escapeChar '\t' = [bslash, 't'] := by simp +decide [escapeChar]
              rw [hesc, List.cons_append, List.cons_append, List.nil_append, parseStrBody.eq_def]
              simp +decide [unescapeChar, ih]
            · by_cases h5 : c = '\r'
              · subst h5
                have hesc : escapeChar '\r' = [bslash, 'r'] := by simp +decide [escapeChar]
                rw [hesc, List.cons_append, List.cons_append, List.nil_append,
                  parseStrBody.eq_def]
                simp +decide [unescapeChar, ih]
              · by_cases h6 : c = Char.ofNat 8
                · subst h6
                  have hesc : escapeChar (Char.ofNat 8) = [bslash, 'b'] := by
                    simp +decide [escapeChar]
                  rw [hesc, List.cons_append, List.cons_append, List.nil_append,
                    parseStrBody.eq_def]
                  simp +decide [unescapeChar, ih]
                · by_cases h7 : c = Char.ofNat 12
                  · subst h7
                    have hesc : escapeChar (Char.ofNat 12) = [bslash, 'f'] := by
                      simp +decide [escapeChar]
                    rw [hesc, List.cons_append, List.cons_append, List.nil_append,
                      parseStrBody.eq_def]
                    simp +decide [unescapeChar, ih]
                  · by_cases h8 : c.toNat < 32
                    · have hesc : escapeChar c = [bslash, 'u', '0', '0',
                          hexDigitChar (c.toNat / 16), hexDigitChar (c.toNat % 16)] := by
                        rw [escapeChar]
                        simp +decide [h1, h2, h3, h4, h5, h6, h7, h8]
                      rw [hesc]
                      have hd1 : hexVal (hexDigitChar (c.toNat / 16)) = some (c.toNat / 16) :=
                        hexVal_hexDigitChar _ (by omega)
                      have hd2 : hexVal (hexDigitChar (c.toNat % 16)) = some (c.toNat % 16) :=
                        hexVal_hexDigitChar _ (Nat.mod_lt _ (by omega))
                      have hz : hexVal '0' = some 0 := by decide
                      rw [List.cons_append, List.cons_append, List.cons_append,
                        List.cons_append, List.cons_append, List.cons_append,
                        List.nil_append, parseStrBody.eq_def]
                      simp +decide [hd1, hd2, hz, ih]
                      have harith : 16 * (c.toNat / 16) + c.toNat % 16 = c.toNat := by omega
                      rw [harith, Char.ofNat_toNat c]
                    · have hesc : escapeChar c = [c] := by
                        rw [escapeChar]
                        simp +decide [h1, h2, h3, h4, h5, h6, h7, h8]
                      rw [hesc, List.cons_append, List.nil_append, parseStrBody.eq_def]
                      have hb1 : (c == dquote) = false := by simp [h1]
                      have hb2 : (c == bslash) = false := by simp [h2]
                      simp only [hb1, hb2, Bool.false_eq_true, if_false, h8, ih]

theorem skipWs_ws_start (a : Str) (ha : ∀ c ∈ a, isJsonWs c = true) :
    ∀ s, skipWs (a ++ s) = skipWs s := by
  induction a with
  | nil => intro s; rfl
  | cons c a ih =>
      intro s
      rw [List.cons_append, skipWs, List.dropWhile_cons, if_pos (ha c (by simp))]
      exact ih (fun c2 h2 => ha c2 (by simp [h2])) s

theorem skipWs_not_ws (c : Char) (s : Str) (hc : isJsonWs c = false) :
    skipWs (c :: s) = c :: s := by
  rw [skipWs, List.dropWhile_cons, if_neg (by simp [hc])]

theorem parseJString_quote (lead k rest : Str) (hl : ∀ c ∈ lead, isJsonWs c = true) :
    parseJString (lead ++ (quoteStr k ++ rest)) = some (k, rest) := by
  have he : quoteStr k ++ rest = dquote :: (escStr k ++ dquote :: rest) := by
    simp [quoteStr]
  rw [he, parseJString, skipWs_ws_start lead hl,
    skipWs_not_ws dquote _ (by decide)]
  simp [parseStrBody_escStr]

theorem parseEntry_dumpEntry (lead : Str) (kv : Str × Str) (rest : Str)
    (hl : ∀ c ∈ lead, isJsonWs c = true) :
    parseEntry (lead ++ (dumpEntry kv ++ rest)) = some (kv, rest) := by
  have he : lead ++ (dumpEntry kv ++ rest) =
      (lead ++ [' ', ' ']) ++ (quoteStr kv.1 ++ (':' :: ' ' :: (quoteStr kv.2 ++ rest))) := by
    simp [dumpEntry]
  rw [he, parseEntry, parseJString_quote (lead ++ [' ', ' ']) kv.1 _
    (by intro c hc
        rcases List.mem_append.mp hc with h | h
        · exact hl c h
        · simp at h
          rw [h]
          rfl)]
  dsimp only
  rw [skipWs_not_ws ':' _ (by decide)]
  simp only [beq_self_eq_true, if_true]
  have he2 : ' ' :: (quoteStr kv.2 ++ rest) = [' '] ++ (quoteStr kv.2 ++ rest) := rfl
  rw [he2, parseJString_quote [' '] kv.2 rest (by intro c hc; simp at hc; rw [hc]; rfl)]

theorem parseEntriesAux_entryBlock (kvs : List (Str × Str)) :
    ∀ (kv : Str × Str) (fuel : Nat), kvs.length < fuel →
    ∀ (lead : Str), (∀ c ∈ lead, isJsonWs c = true) → ∀ (tail : Str),
    parseEntriesAux fuel (lead ++ (entryBlock (kv :: kvs) ++ '\n' :: rbrace :: tail)) =
      some (kv :: kvs, tail) := by
  induction kvs with
  | nil =>
      intro kv fuel hf lead hl tail
      obtain ⟨f, rfl⟩ : ∃ f, fuel = f + 1 := ⟨fuel - 1, by omega⟩
      have hEB : entryBlock [kv] = dumpEntry kv := rfl
      rw [hEB, parseEntriesAux,
        parseEntry_dumpEntry lead kv ('\n' :: rbrace :: tail) hl]
      dsimp only
      have hws : skipWs ('\n' :: rbrace :: tail) = rbrace :: tail := by
        rw [show ('\n' :: rbrace :: tail) = ['\n'] ++ (rbrace :: tail) from rfl,
          skipWs_ws_start ['\n'] (by decide),
          skipWs_not_ws rbrace _ (by decide)]
      rw [hws]
      simp +decide
  | cons kv2 kvs ih =>
      intro kv fuel hf lead hl tail
      obtain ⟨f, rfl⟩ : ∃ f, fuel = f + 1 := ⟨fuel - 1, by omega⟩
      have hEB : entryBlock (kv :: kv2 :: kvs) =
          dumpEntry kv ++ ',' :: '\n' :: entryBlock (kv2 :: kvs) := rfl
      have hsh : lead ++ (entryBlock (kv :: kv2 :: kvs) ++ '\n' :: rbrace :: tail) =
          lead ++ (dumpEntry kv ++
            (',' :: ('\n' :: (entryBlock (kv2 :: kvs) ++ '\n' :: rbrace :: tail)))) := by
        rw [hEB]
        simp
      rw [hsh, parseEntriesAux, parseEntry_dumpEntry lead kv _ hl]
      dsimp only
      rw [skipWs_not_ws ',' _ (by decide)]
      have hstep : parseEntriesAux f
          (['\n'] ++ (entryBlock (kv2 :: kvs) ++ '\n' :: rbrace :: tail)) =
          some (kv2 :: kvs, tail) := by
        refine ih kv2 f (by simp at hf ⊢; omega) ['\n'] (by decide) tail
      simp only [List.singleton_append] at hstep
      simp +decide [hstep]

theorem dumpEntry_length (kv : Str × Str) : 2 ≤ (dumpEntry kv).length := by
  simp [dumpEntry]

theorem entryBlock_length (l : List (Str × Str)) : l.length ≤ (entryBlock l).length := by
  induction l with
  | nil => simp [entryBlock]
  | cons kv rest ih =>
      cases rest with
      | nil => have := dumpEntry_length kv; simp [entryBlock]; omega
      | cons kv2 rest2 =>
          have hEB : entryBlock (kv :: kv2 :: rest2) =
              dumpEntry kv ++ ',' :: '\n' :: entryBlock (kv2 :: rest2) := rfl
          have := dumpEntry_length kv
          simp [hEB]
          simp at ih
          omega

theorem entryBlock_cons_shape (kv : Str × Str) (l : List (Str × Str)) :
    ∃ z, entryBlock (kv :: l) = ' ' :: ' ' :: (dquote :: z) := by
  cases l with
  | nil => exact ⟨escStr kv.1 ++ [dquote] ++ ':' :: ' ' :: quoteStr kv.2, by
      simp [entryBlock, dumpEntry, quoteStr]⟩
  | cons kv2 rest => exact ⟨escStr kv.1 ++ [dquote] ++ ':' :: ' ' :: quoteStr kv.2 ++
      ',' :: '\n' :: entryBlock (kv2 :: rest), by
      have hEB : entryBlock (kv :: kv2 :: rest) =
          dumpEntry kv ++ ',' :: '\n' :: entryBlock (kv2 :: rest) := rfl
      simp [hEB, dumpEntry, quoteStr]⟩

/-- The JSON serialiser and the object parser are inverse. -/
theorem jsonLoadsObj_jsonDumps (d : List (Str × Str)) : jsonLoadsObj (jsonDumps d) = some d := by
  cases d with
  | nil => decide
  | cons kv kvs =>
      have hJD : jsonDumps (kv :: kvs) =
          lbrace :: '\n' :: (entryBlock (kv :: kvs) ++ ['\n', rbrace]) := rfl
      rw [jsonLoadsObj, hJD, skipWs_not_ws lbrace _ (by decide)]
      dsimp only
      rw [if_pos (by decide : (lbrace == lbrace) = true)]
      obtain ⟨z, hz⟩ := entryBlock_cons_shape kv kvs
      have hws : skipWs ('\n' :: (entryBlock (kv :: kvs) ++ ['\n', rbrace])) =
          dquote :: (z ++ ['\n', rbrace]) := by
        rw [hz]
        rw [show ('\n' :: (' ' :: ' ' :: (dquote :: z) ++ ['\n', rbrace])) =
          ['\n', ' ', ' '] ++ (dquote :: (z ++ ['\n', rbrace])) from by simp]
        rw [skipWs_ws_start ['\n', ' ', ' '] (by decide),
          skipWs_not_ws dquote _ (by decide)]
      rw [hws]
      dsimp only
      rw [if_neg (by decide : ¬(dquote == rbrace) = true)]
      have hfuel : kvs.length < (lbrace :: '\n' ::
          (entryBlock (kv :: kvs) ++ ['\n', rbrace])).length + 1 := by
        have := entryBlock_length (kv :: kvs)
        simp at this ⊢
        omega
      have haux := parseEntriesAux_entryBlock kvs kv
        ((lbrace :: '\n' :: (entryBlock (kv :: kvs) ++ ['\n', rbrace])).length + 1)
        hfuel ['\n'] (by decide) []
      rw [show ('\n' :: (entryBlock (kv :: kvs) ++ ['\n', rbrace])) =
        ['\n'] ++ (entryBlock (kv :: kvs) ++ '\n' :: rbrace :: []) from by simp] at *
      rw [haux]
      rfl

theorem isPrefixOf_cons_false {m : Str} {h c : Char} {mt s : Str}
    (hm : m = h :: mt) (hne : c ≠ h) : m.isPrefixOf (c :: s) = false := by
  subst hm
  simp [List.isPrefixOf, Ne.symm hne]

theorem splitOnFirst_cons_neg (m : Str) (c : Char) (s : Str)
    (h : m.isPrefixOf (c :: s) = false) :
    splitOnFirst m (c :: s) =
      (splitOnFirst m s).map (fun pq => (c :: pq.1, pq.2)) := by
  rw [splitOnFirst, h]
  cases hs : splitOnFirst m s with
  | none => simp
  | some pq => cases pq; simp

theorem splitOnFirst_exact (m s : Str) (hm : m ≠ []) :
    splitOnFirst m (m ++ s) = some ([], s) := by
  cases hme : m ++ s with
  | nil => cases m with
      | nil => exact absurd rfl hm
      | cons a b => simp at hme
  | cons c cs =>
      rw [splitOnFirst, ← hme,
        if_pos (List.isPrefixOf_iff_prefix.mpr (m.prefix_append s)), List.drop_left]

theorem splitOnFirst_skip (m : Str) (h : Char) (mt : Str) (hm : m = h :: mt) :
    ∀ (a : Str), h ∉ a → ∀ s, splitOnFirst m (a ++ s) =
      (splitOnFirst m s).map (fun pq => (a ++ pq.1, pq.2)) := by
  intro a
  induction a with
  | nil =>
      intro _ s
      cases hs : splitOnFirst m s with
      | none => simp [hs]
      | some pq => cases pq; simp [hs]
  | cons c a ih =>
      intro hna s
      have hne : c ≠ h := fun hEq => hna (hEq ▸ List.mem_cons_self c a)
      rw [List.cons_append, splitOnFirst_cons_neg m c _ (isPrefixOf_cons_false hm hne),
        ih (fun hmem => hna (List.mem_cons_of_mem c hmem)) s]
      cases hs : splitOnFirst m s with
      | none => simp
      | some pq => cases pq; simp

theorem splitOnFirst_none (m : Str) (h : Char) (mt : Str) (hm : m = h :: mt) :
    ∀ (s : Str), h ∉ s → splitOnFirst m s = none := by
  intro s
  induction s with
  | nil => intro _; rw [splitOnFirst, if_neg (by simp [hm])]
  | cons c cs ih =>
      intro hns
      have hne : c ≠ h := fun hEq => hns (hEq ▸ List.mem_cons_self c cs)
      rw [splitOnFirst_cons_neg m c _ (isPrefixOf_cons_false hm hne),
        ih (fun hmem => hns (List.mem_cons_of_mem c hmem))]
      rfl

theorem endMarker_eq : endMarker = '\n' :: "END DATABASE PARAMETERS */".data := rfl

theorem hexDigitChar_ne_newline (m : Nat) (h : m < 16) : hexDigitChar m ≠ '\n' := by
  interval_cases m <;> decide

theorem newline_not_mem_escapeChar (c : Char) : '\n' ∉ escapeChar c := by
  rw [escapeChar]
  by_cases h1 : (c == dquote) = true
  · simp +decide [h1]
  · by_cases h2 : (c == bslash) = true
    · simp +decide [h1, h2]
    · by_cases h3 : (c == '\n') = true
      · simp +decide [h1, h2, h3]
      · by_cases h4 : (c == '\t') = true
        · simp +decide [h1, h2, h3, h4]
        · by_cases h5 : (c == '\r') = true
          · simp +decide [h1, h2, h3, h4, h5]
          · by_cases h6 : (c == Char.ofNat 8) = true
            · simp +decide [h1, h2, h3, h4, h5, h6]
            · by_cases h7 : (c == Char.ofNat 12) = true
              · simp +decide [h1, h2, h3, h4, h5, h6, h7]
              · by_cases h8 : c.toNat < 32
                · simp only [h1, h2, h3, h4, h5, h6, h7, h8, Bool.false_eq_true,
                    if_false, if_true]
                  intro hmem
                  simp only [List.mem_cons, List.not_mem_nil, or_false] at hmem
                  rcases hmem with h | h | h | h | h | h
                  · exact absurd h (by decide)
                  · exact absurd h (by decide)
                  · exact absurd h (by decide)
                  · exact absurd h (by decide)
                  · exact hexDigitChar_ne_newline (c.toNat / 16) (by omega) h.symm
                  · exact hexDigitChar_ne_newline (c.toNat % 16)
                      (Nat.mod_lt _ (by omega)) h.symm
                · simp only [h1, h2, h3, h4, h5, h6, h7, h8, Bool.false_eq_true,
                    if_false]
                  intro hmem
                  simp at hmem
                  rw [hmem] at h3
                  simp at h3

theorem newline_not_mem_escStr (s : Str) : '\n' ∉ escStr s := by
  induction s with
  | nil => simp [escStr_nil]
  | cons c s ih =>
      rw [escStr_cons]
      intro hmem
      rcases List.mem_append.mp hmem with h | h
      · exact newline_not_mem_escapeChar c h
      · exact ih h

theorem newline_not_mem_quoteStr (s : Str) : '\n' ∉ quoteStr s := by
  rw [quoteStr]
  intro h
  rcases List.mem_cons.mp h with h | h
  · exact absurd h (by decide)
  · rcases List.mem_append.mp h with h | h
    · exact newline_not_mem_escStr s h
    · rw [List.mem_singleton] at h
      exact absurd h (by decide)

theorem newline_not_mem_dumpEntry (kv : Str × Str) : '\n' ∉ dumpEntry kv := by
  rw [dumpEntry]
  intro h
  rcases List.mem_cons.mp h with h | h
  · exact absurd h (by decide)
  · rcases List.mem_cons.mp h with h | h
    · exact absurd h (by decide)
    · rcases List.mem_append.mp h with h | h
      · exact newline_not_mem_quoteStr kv.1 h
      · rcases List.mem_cons.mp h with h | h
        · exact absurd h (by decide)
        · rcases List.mem_cons.mp h with h | h
          · exact absurd h (by decide)
          · exact newline_not_mem_quoteStr kv.2 h

theorem splitOnFirst_endMarker_entryBlock (kvs : List (Str × Str)) :
    ∀ (kv : Str × Str) (tail : Str),
    splitOnFirst endMarker (entryBlock (kv :: kvs) ++ '\n' :: rbrace :: (endMarker ++ tail)) =
      some (entryBlock (kv :: kvs) ++ ['\n', rbrace], tail) := by
  induction kvs with
  | nil =>
      intro kv tail
      have hEB : entryBlock [kv] = dumpEntry kv := rfl
      rw [hEB,
        splitOnFirst_skip endMarker '\n' _ endMarker_eq (dumpEntry kv)
          (newline_not_mem_dumpEntry kv)]
      have h1 : endMarker.isPrefixOf ('\n' :: rbrace :: (endMarker ++ tail)) = false := by
        rw [endMarker_eq]
        simp +decide [List.isPrefixOf]
      rw [splitOnFirst_cons_neg _ _ _ h1]
      have h2 : endMarker.isPrefixOf (rbrace :: (endMarker ++ tail)) = false := by
        rw [endMarker_eq]
        simp +decide [List.isPrefixOf]
      rw [splitOnFirst_cons_neg _ _ _ h2,
        splitOnFirst_exact endMarker tail (by rw [endMarker_eq]; simp)]
      simp
  | cons kv2 kvs ih =>
      intro kv tail
      have hEB : entryBlock (kv :: kv2 :: kvs) =
          dumpEntry kv ++ ',' :: '\n' :: entryBlock (kv2 :: kvs) := rfl
      rw [hEB]
      rw [show (dumpEntry kv ++ ',' :: '\n' :: entryBlock (kv2 :: kvs)) ++
          '\n' :: rbrace :: (endMarker ++ tail) =
        dumpEntry kv ++ (',' :: ('\n' :: (entryBlock (kv2 :: kvs) ++
          '\n' :: rbrace :: (endMarker ++ tail)))) from by simp]
      rw [splitOnFirst_skip endMarker '\n' _ endMarker_eq (dumpEntry kv)
        (newline_not_mem_dumpEntry kv)]
      have h1 : endMarker.isPrefixOf (',' :: ('\n' :: (entryBlock (kv2 :: kvs) ++
          '\n' :: rbrace :: (endMarker ++ tail)))) = false := by
        rw [endMarker_eq]
        simp +decide [List.isPrefixOf]
      rw [splitOnFirst_cons_neg _ _ _ h1]
      obtain ⟨z, hz⟩ := entryBlock_cons_shape kv2 kvs
      have h2 : endMarker.isPrefixOf ('\n' :: (entryBlock (kv2 :: kvs) ++
          '\n' :: rbrace :: (endMarker ++ tail))) = false := by
        rw [endMarker_eq, hz]
        simp +decide [List.isPrefixOf]
      rw [splitOnFirst_cons_neg _ _ _ h2, ih kv2 tail]
      simp

/-- Splitting at the end marker recovers exactly the serialised
dictionary written before it. -/
theorem splitOnFirst_endMarker_jsonDumps (d : List (Str × Str)) (tail : Str) :
    splitOnFirst endMarker (jsonDumps d ++ endMarker ++ tail) =
      some (jsonDumps d, tail) := by
  cases d with
  | nil =>
      have hJD : jsonDumps [] = [lbrace, rbrace] := rfl
      rw [hJD]
      have h1 : endMarker.isPrefixOf (lbrace :: rbrace :: (endMarker ++ tail)) = false := by
        rw [endMarker_eq]
        simp +decide [List.isPrefixOf]
      have h2 : endMarker.isPrefixOf (rbrace :: (endMarker ++ tail)) = false := by
        rw [endMarker_eq]
        simp +decide [List.isPrefixOf]
      rw [show ([lbrace, rbrace] : Str) ++ endMarker ++ tail =
        lbrace :: rbrace :: (endMarker ++ tail) from by simp,
        splitOnFirst_cons_neg _ _ _ h1, splitOnFirst_cons_neg _ _ _ h2,
        splitOnFirst_exact endMarker tail (by rw [endMarker_eq]; simp)]
      rfl
  | cons kv kvs =>
      have hJD : jsonDumps (kv :: kvs) =
          lbrace :: '\n' :: (entryBlock (kv :: kvs) ++ ['\n', rbrace]) := rfl
      rw [hJD]
      have h1 : endMarker.isPrefixOf ('\n' :: ((entryBlock (kv :: kvs) ++ ['\n', rbrace]) ++
          (endMarker ++ tail))) = false := by
        obtain ⟨z, hz⟩ := entryBlock_cons_shape kv kvs
        rw [endMarker_eq, hz]
        simp +decide [List.isPrefixOf]
      have h0 : endMarker.isPrefixOf (lbrace :: ('\n' :: ((entryBlock (kv :: kvs) ++
          ['\n', rbrace]) ++ (endMarker ++ tail)))) = false := by
        rw [endMarker_eq]
        simp +decide [List.isPrefixOf]
      rw [show (lbrace :: '\n' :: (entryBlock (kv :: kvs) ++ ['\n', rbrace])) ++
          endMarker ++ tail =
        lbrace :: ('\n' :: ((entryBlock (kv :: kvs) ++ ['\n', rbrace]) ++
          (endMarker ++ tail))) from by simp,
        splitOnFirst_cons_neg _ _ _ h0, splitOnFirst_cons_neg _ _ _ h1]
      rw [show (entryBlock (kv :: kvs) ++ ['\n', rbrace]) ++ (endMarker ++ tail) =
        entryBlock (kv :: kvs) ++ '\n' :: rbrace :: (endMarker ++ tail) from by simp]
      rw [splitOnFirst_endMarker_entryBlock kvs kv tail]
      simp

theorem startMarker_eq : startMarker = '/' :: "* START DATABASE PARAMETERS\n".data := rfl

theorem regexExtract_append_start (s : Str) (payload q : Str)
    (h : splitOnFirst endMarker s = some (payload, q)) :
    regexExtract (startMarker ++ s) = some payload := by
  rw [show startMarker ++ s = '/' :: ("* START DATABASE PARAMETERS\n".data ++ s) from rfl,
    regexExtract]
  rw [if_pos ?hp]
  case hp =>
    rw [show ('/' :: ("* START DATABASE PARAMETERS\n".data ++ s)) = startMarker ++ s from rfl]
    exact List.isPrefixOf_iff_prefix.mpr (startMarker.prefix_append s)
  rw [show ('/' :: ("* START DATABASE PARAMETERS\n".data ++ s)).drop startMarker.length =
    s from by
      rw [show ('/' :: ("* START DATABASE PARAMETERS\n".data ++ s)) =
        startMarker ++ s from rfl, List.drop_left]]
  rw [h]

theorem regexExtract_none_of_no_slash (s : Str) (h : '/' ∉ s) : regexExtract s = none := by
  induction s with
  | nil => rfl
  | cons c cs ih =>
      have hne : c ≠ '/' := fun hEq => h (hEq ▸ List.mem_cons_self c cs)
      rw [regexExtract, if_neg (by
        rw [isPrefixOf_cons_false startMarker_eq hne]
        simp)]
      exact ih (fun hmem => h (List.mem_cons_of_mem c hmem))

/-- Decomposition of the first 4096 characters of the written stream
when the serialised dictionary fits. -/
theorem take_content (d : List (Str × Str)) (dump : Str)
    (hlen : (jsonDumps d).length + 56 ≤ 4096) :
    (write_db_info_header d ++ dump).take 4096 =
      startMarker ++ ((jsonDumps d ++ endMarker) ++
        ('\n' :: '\n' :: dump).take (4067 - ((jsonDumps d).length + 27))) := by
  have hsh : write_db_info_header d ++ dump =
      startMarker ++ ((jsonDumps d ++ endMarker) ++ ('\n' :: '\n' :: dump)) := by
    rw [write_db_info_header]
    simp
  rw [hsh, @List.take_append_eq_append_take _ startMarker _ 4096,
    List.take_of_length_le (show startMarker.length ≤ 4096 by
      rw [show startMarker.length = 29 from rfl]; omega),
    show (4096 - startMarker.length) = 4067 from rfl,
    @List.take_append_eq_append_take _ (jsonDumps d ++ endMarker) ('\n' :: '\n' :: dump) 4067]
  have hl2 : (jsonDumps d ++ endMarker).length = (jsonDumps d).length + 27 := by
    simp [show endMarker.length = 27 from rfl]
  rw [List.take_of_length_le (by rw [hl2]; omega), hl2]

/-- Claim C6 (amended): writing the database-parameters header block
followed by arbitrary dump content and reading the stream back (raw or
gzip-compressed) recovers exactly the original dictionary, provided
the serialised dictionary fits in the 4096-character prefix the reader
examines (29-character start marker + payload + 27-character end
marker within 4096). -/
theorem claim_c6_header_roundtrip (d : List (Str × Str)) (dump : Str) (gz : Bool)
    (hlen : (jsonDumps d).length + 56 ≤ 4096) :
    read_db_info_header ⟨gz, write_db_info_header d ++ dump⟩ = d := by
  rw [read_db_info_header]
  have htk := take_content d dump hlen
  rw [show (Artifact.mk gz (write_db_info_header d ++ dump)).text =
    write_db_info_header d ++ dump from rfl, htk]
  have hsp : splitOnFirst endMarker ((jsonDumps d ++ endMarker) ++
      ('\n' :: '\n' :: dump).take (4067 - ((jsonDumps d).length + 27))) =
      some (jsonDumps d, ('\n' :: '\n' :: dump).take (4067 - ((jsonDumps d).length + 27))) := by
    have h := splitOnFirst_endMarker_jsonDumps d
      (('\n' :: '\n' :: dump).take (4067 - ((jsonDumps d).length + 27)))
    simpa using h
  rw [regexExtract_append_start _ _ _ hsp]
  dsimp only
  rw [jsonLoadsObj_jsonDumps]
  rfl

/-- Witness for the amended claim C6 on a realistic variables
dictionary over a compressed artifact. -/
theorem claim_c6_header_roundtrip_witness :
    read_db_info_header ⟨true, write_db_info_header
        [("character_set_server".data, "utf8mb4".data),
         ("sql_mode".data, "STRICT_TRANS_TABLES".data)] ++
      "CREATE TABLE t (x INT);\n".data⟩ =
      [("character_set_server".data, "utf8mb4".data),
       ("sql_mode".data, "STRICT_TRANS_TABLES".data)] :=
  claim_c6_header_roundtrip
    [("character_set_server".data, "utf8mb4".data),
     ("sql_mode".data, "STRICT_TRANS_TABLES".data)]
    "CREATE TABLE t (x INT);\n".data true (by decide)

theorem regexExtract_append_start_none (s : Str)
    (h : splitOnFirst endMarker s = none) :
    regexExtract (startMarker ++ s) =
      regexExtract ("* START DATABASE PARAMETERS\n".data ++ s) := by
  rw [show startMarker ++ s = '/' :: ("* START DATABASE PARAMETERS\n".data ++ s) from rfl,
    regexExtract]
  rw [if_pos ?hp]
  case hp =>
    rw [show ('/' :: ("* START DATABASE PARAMETERS\n".data ++ s)) = startMarker ++ s from rfl]
    exact List.isPrefixOf_iff_prefix.mpr (startMarker.prefix_append s)
  rw [show ('/' :: ("* START DATABASE PARAMETERS\n".data ++ s)).drop startMarker.length =
    s from by
      rw [show ('/' :: ("* START DATABASE PARAMETERS\n".data ++ s)) =
        startMarker ++ s from rfl, List.drop_left]]
  rw [h]

theorem escStr_replicate_a (n : Nat) :
    escStr (List.replicate n 'a') = List.replicate n 'a' := by
  induction n with
  | zero => rfl
  | succ n ih =>
      rw [List.replicate_succ, escStr_cons, ih, show escapeChar 'a' = ['a'] from by decide]
      rfl

/-- A dictionary whose serialised form exceeds the 4096-character
prefix read by `read_db_info_header`. -/
def bigDict : List (Str × Str) := [("k".data, List.replicate 5000 'a')]

theorem jsonDumps_singleton (kv : Str × Str) :
    jsonDumps [kv] = lbrace :: '\n' :: (dumpEntry kv ++ ['\n', rbrace]) := rfl

theorem dumpEntry_expand (kv : Str × Str) :
    dumpEntry kv = ' ' :: ' ' :: ((dquote :: (escStr kv.1 ++ [dquote])) ++
      ':' :: ' ' :: (dquote :: (escStr kv.2 ++ [dquote]))) := rfl

theorem jsonDumps_bigDict : jsonDumps bigDict =
    [lbrace, '\n', ' ', ' ', dquote, 'k', dquote, ':', ' ', dquote] ++
      (List.replicate 5000 'a' ++ [dquote, '\n', rbrace]) := by
  have h1 : escStr "k".data = ['k'] := by decide
  have h2 : escStr (List.replicate 5000 'a') = List.replicate 5000 'a' :=
    escStr_replicate_a 5000
  conv_lhs => rw [bigDict, jsonDumps_singleton, dumpEntry_expand]
  conv_lhs => rw [show (("k".data, List.replicate 5000 'a') : Str × Str).1 =
    "k".data from rfl]
  conv_lhs => rw [show (("k".data, List.replicate 5000 'a') : Str × Str).2 =
    List.replicate 5000 'a' from rfl]
  conv_lhs => rw [h1, h2]
  simp only [List.cons_append, List.nil_append, List.append_assoc, List.singleton_append]

theorem jsonDumps_bigDict_length : (jsonDumps bigDict).length = 5013 := by
  conv_lhs => rw [jsonDumps_bigDict]
  simp only [List.length_append, List.length_replicate, List.length_cons, List.length_nil]

/-- Claim C6 counterexample: for `bigDict` the end marker lies beyond
the 4096-character prefix, the regex search fails, and the reader
returns the empty dictionary instead of the written one — the
round-trip fails even though the stream was produced by
`write_db_info_header`. -/
theorem claim_c6_counterexample :
    read_db_info_header ⟨false, write_db_info_header bigDict ++
        "CREATE TABLE t (x INT);\n".data⟩ = [] ∧
    read_db_info_header ⟨false, write_db_info_header bigDict ++
        "CREATE TABLE t (x INT);\n".data⟩ ≠ bigDict := by
  have hsh : write_db_info_header bigDict ++ "CREATE TABLE t (x INT);\n".data =
      startMarker ++ (jsonDumps bigDict ++
        (endMarker ++ ('\n' :: '\n' :: "CREATE TABLE t (x INT);\n".data))) := by
    conv_lhs => rw [write_db_info_header]
    simp only [List.append_assoc, List.cons_append, List.nil_append]
  have hcontent : (write_db_info_header bigDict ++
      "CREATE TABLE t (x INT);\n".data).take 4096 =
      startMarker ++ ([lbrace, '\n', ' ', ' ', dquote, 'k', dquote, ':', ' ', dquote] ++
        List.replicate 4057 'a') := by
    conv_lhs => rw [hsh]
    conv_lhs => rw [@List.take_append_eq_append_take _ startMarker _ 4096]
    conv_lhs => rw [List.take_of_length_le (show startMarker.length ≤ 4096 by
      rw [show startMarker.length = 29 from rfl]; omega)]
    conv_lhs => rw [show startMarker.length = 29 from rfl]
    conv_lhs => rw [show (4096 - 29 : Nat) = 4067 from rfl]
    conv_lhs => rw [@List.take_append_eq_append_take _ (jsonDumps bigDict) _ 4067]
    conv_lhs => rw [jsonDumps_bigDict_length]
    conv_lhs => rw [show (4067 - 5013 : Nat) = 0 from rfl]
    conv_lhs => rw [List.take_zero, List.append_nil]
    conv_lhs => rw [jsonDumps_bigDict]
    conv_lhs => rw [@List.take_append_eq_append_take _
      [lbrace, '\n', ' ', ' ', dquote, 'k', dquote, ':', ' ', dquote] _ 4067]
    conv_lhs => rw [List.take_of_length_le (show ([lbrace, '\n', ' ', ' ', dquote, 'k',
      dquote, ':', ' ', dquote] : Str).length ≤ 4067 from by simp)]
    conv_lhs => rw [show ([lbrace, '\n', ' ', ' ', dquote, 'k', dquote, ':', ' ',
      dquote] : Str).length = 10 from rfl]
    conv_lhs => rw [show (4067 - 10 : Nat) = 4057 from rfl]
    conv_lhs => rw [@List.take_append_eq_append_take _ (List.replicate 5000 'a') _ 4057]
    conv_lhs => rw [List.length_replicate]
    conv_lhs => rw [show (4057 - 5000 : Nat) = 0 from rfl]
    conv_lhs => rw [List.take_zero, List.append_nil]
    conv_lhs => rw [List.take_replicate]
    conv_lhs => rw [show min 4057 5000 = 4057 from by omega]
  have hsplit : splitOnFirst endMarker
      ([lbrace, '\n', ' ', ' ', dquote, 'k', dquote, ':', ' ', dquote] ++
        List.replicate 4057 'a') = none := by
    have hshape : ([lbrace, '\n', ' ', ' ', dquote, 'k', dquote, ':', ' ', dquote] ++
        List.replicate 4057 'a' : Str) =
        lbrace :: '\n' :: ([' ', ' ', dquote, 'k', dquote, ':', ' ', dquote] ++
          List.replicate 4057 'a') := by
      simp only [List.cons_append, List.nil_append]
    have hnomem : '\n' ∉ ([' ', ' ', dquote, 'k', dquote, ':', ' ', dquote] ++
        List.replicate 4057 'a' : Str) := by
      intro hmem
      rcases List.mem_append.mp hmem with h | h
      · exact absurd h (by decide)
      · exact absurd (List.eq_of_mem_replicate h) (by decide)
    conv_lhs => rw [hshape]
    conv_lhs => rw [splitOnFirst_cons_neg _ _ _
      (isPrefixOf_cons_false endMarker_eq (by decide))]
    conv_lhs => rw [splitOnFirst_cons_neg _ _ _ (by
      rw [endMarker_eq]
      simp +decide [List.isPrefixOf])]
    conv_lhs => rw [splitOnFirst_none endMarker '\n' _ endMarker_eq _ hnomem]
    rfl
  have hre : regexExtract ((write_db_info_header bigDict ++
      "CREATE TABLE t (x INT);\n".data).take 4096) = none := by
    conv_lhs => rw [hcontent]
    conv_lhs => rw [regexExtract_append_start_none _ hsplit]
    rw [regexExtract_none_of_no_slash]
    intro hmem
    rcases List.mem_append.mp hmem with h | h
    · exact absurd h (by decide)
    · rcases List.mem_append.mp h with h2 | h2
      · exact absurd h2 (by decide)
      · exact absurd (List.eq_of_mem_replicate h2) (by decide)
  have hmain : read_db_info_header ⟨false, write_db_info_header bigDict ++
      "CREATE TABLE t (x INT);\n".data⟩ = [] := by
    conv_lhs => rw [read_db_info_header]
    conv_lhs => rw [show (Artifact.mk false (write_db_info_header bigDict ++
      "CREATE TABLE t (x INT);\n".data)).text =
        write_db_info_header bigDict ++ "CREATE TABLE t (x INT);\n".data from rfl]
    conv_lhs => rw [hre]
  refine ⟨hmain, ?_⟩
  rw [hmain, bigDict]
  exact fun hEq => List.cons_ne_nil _ _ hEq.symm
